import Mathlib

/-!
Shallow embedding of the entity-resolution core of the astar-erc-tokens
indexer (subsquid processor for ERC20/ERC721/ERC1155 events).

Conventions of the embedding:
* TypeScript `bigint` / ethers `BigNumber` amounts are embedded as `Int`
  (uint256 values are non-negative; arithmetic here never wraps).
* Native token ids are embedded as `Nat`; `BigNumber.toString()` becomes
  `Nat.repr`.
* Nullable fields (`string | null`) become `Option String`.
* The async/exception structure becomes `Except String`: a thrown `Error(msg)`
  is `.error msg`.
* Each `EntitiesManager` instance (src/mappings/utils/classes/common.ts,
  given here as src/unnamed/part_005) becomes a `Mgr E` record holding the
  init flag (`context` bound or not), the in-batch cache (`entitiesMap`) and
  the prefetch id list.  The durable store is an explicit parameter
  `String → Option E`; store queries issued by an operation are reported in
  an explicit query log (the list of entity ids named by `get`/`find` calls).
* Entity references (TypeScript object references) are embedded as value
  snapshots; no claim below observes reference aliasing.
-/

/-! ### Model enums (src/model) -/
inductive ContractStandard
  | ERC20
  | ERC721
  | ERC1155
deriving DecidableEq, Repr

inductive TransferType
  | MINT
  | BURN
  | TRANSFER
deriving DecidableEq, Repr

inductive TransferDirection
  | From
  | To
deriving DecidableEq, Repr

inductive FTokenBalanceAction
  | add
  | sub
deriving DecidableEq, Repr

/-! ### Entity records (src/model/generated, persisted columns only) -/
structure Account where
  id : String
deriving DecidableEq, Repr

structure FToken where
  id : String
  name : Option String
  symbol : Option String
  decimals : Option Int
deriving DecidableEq, Repr

structure Collection where
  id : String
  collectionType : ContractStandard
  createdAtBlock : Int
  createdAt : Nat
deriving DecidableEq, Repr

structure NfToken where
  id : String
  nativeId : String
  name : Option String
  symbol : Option String
  uri : Option String
  currentOwner : Account
  amount : Int
  isBurned : Bool
  collection : Collection
deriving DecidableEq, Repr

structure FtTransfer where
  id : String
  blockNumber : Int
  timestamp : Nat
  eventIndex : Nat
  txnHash : String
  from_ : Account
  to_ : Account
  amount : Int
  transferType : TransferType
  token : FToken
deriving DecidableEq, Repr

structure NftTransfer where
  id : String
  blockNumber : Int
  timestamp : Nat
  eventIndex : Nat
  txnHash : String
  from_ : Account
  to_ : Account
  operator : Option Account
  amount : Int
  transferType : TransferType
  token : NfToken
  isBatch : Bool
deriving DecidableEq, Repr

structure AccountFtTransfer where
  id : String
  transfer : FtTransfer
  account : Account
  direction : TransferDirection
deriving DecidableEq, Repr

structure AccountNftTransfer where
  id : String
  transfer : NftTransfer
  account : Account
  direction : TransferDirection
deriving DecidableEq, Repr

structure AccountFTokenBalance where
  id : String
  account : Account
  token : FToken
  amount : Int
  updatedAtBlock : Int
  updatedAt : Nat
deriving DecidableEq, Repr

structure UriUpdateAction where
  id : String
  token : NfToken
  newValue : Option String
  oldValue : Option String
  blockNumber : Int
  timestamp : Nat
  txnHash : String
deriving DecidableEq, Repr

/-! ### String-keyed maps (embedding of the JS `Map<string, Entity>`) -/
abbrev SMap (E : Type) := List (String × E)

def smapFind {E : Type} (m : SMap E) (k : String) : Option E :=
  match m with
  | [] => none
  | (k', v) :: rest => if k' = k then some v else smapFind rest k

/-- Embeds `Map.set` semantics: overwrite an existing binding in place, else append. -/
def smapSet {E : Type} (m : SMap E) (k : String) (v : E) : SMap E :=
  match m with
  | [] => [(k, v)]
  | (k', v') :: rest =>
      if k' = k then (k, v) :: rest else (k', v') :: smapSet rest k v

def smapKeys {E : Type} (m : SMap E) : List String := m.map Prod.fst

/-! ### Identifier scheme and classification
(src/src/mappings/utils/common.ts) -/
def EMPTY_ADDRESS : String := "0x0000000000000000000000000000000000000000"

/-- Embeds `address.substring(0, 6)` + `-` + `address.substring(len-6, len)`
(+ `-tokenId` when a non-empty token id is supplied; JS treats the empty
string as falsy). -/
def getTokenEntityId (address : String) (tokenId : Option String) : String :=
  String.mk (address.data.take 6) ++ "-" ++
    String.mk (address.data.drop (address.data.length - 6)) ++
    (match tokenId with
     | some tid => if tid = "" then "" else "-" ++ tid
     | none => "")

def getNftTransferEntityId (eventId : String) (tokenId : String) : String :=
  eventId ++ "-" ++ tokenId

def getAccountTransferEntityId (accountId : String) (transferId : String) :
    String :=
  accountId ++ "-" ++ transferId

def getAccountFTokenBalanceEntityId (accountId : String) (tokenId : String) :
    String :=
  accountId ++ "-" ++ tokenId

def isMint (from_ to_ : String) : Bool :=
  from_ = EMPTY_ADDRESS && to_ ≠ EMPTY_ADDRESS

def isBurn (from_ to_ : String) : Bool :=
  to_ = EMPTY_ADDRESS && from_ ≠ EMPTY_ADDRESS

def getTransferType (from_ to_ : String) : TransferType :=
  if isMint from_ to_ then TransferType.MINT
  else if isBurn from_ to_ then TransferType.BURN
  else TransferType.TRANSFER

/-- Total-supply arithmetic (src/src/mappings/utils/common.ts, lines 46-77).
The final line of the source clamps the result at zero:
`return newValue >= BigInt(0) ? newValue : BigInt(0)`. -/
def getTokenTotalSupply (currentAmount newAmount : Int)
    (txType : TransferType) : Int :=
  let newValue :=
    match txType with
    | TransferType.MINT => currentAmount + newAmount
    | TransferType.BURN => currentAmount - newAmount
    | TransferType.TRANSFER =>
        -- source: bootstrap from the first observed TRANSFER amount when the
        -- running amount is still zero (mint event possibly missed)
        if currentAmount = 0 then newAmount else currentAmount
  if newValue ≥ 0 then newValue else 0

def getTokenBurnedStatus (currentAmount : Int) : Bool := currentAmount ≤ 0

/-- Recursion core of `splitIntoBatches`, made structural on a fuel bound so
that the kernel can evaluate it (the fuel `list.length` is enough: each
slice removes at least one element; the `maxBatchSize = 0` guard only covers
the case where the source generator would loop forever — it is never called
with 0). -/
def splitIntoBatchesGo {α : Type} (maxBatchSize : Nat) :
    Nat → List α → List (List α)
  | 0, list => [list]
  | Nat.succ fuel, list =>
      if list.length ≤ maxBatchSize ∨ maxBatchSize = 0 then [list]
      else
        list.take maxBatchSize ::
          splitIntoBatchesGo maxBatchSize fuel (list.drop maxBatchSize)

/-- Generator `splitIntoBatches` (src/src/mappings/utils/common.ts, given as
src/unnamed/part_001 lines 90-104): the whole list when it fits in one
batch, else fixed-size slices. -/
def splitIntoBatches {α : Type} (maxBatchSize : Nat) (list : List α) :
    List (List α) :=
  splitIntoBatchesGo maxBatchSize list.length list

/-! ### Contract-call result sanitization
(src/src/mappings/erc20.ts `clearNullBytes` / `getDecoratedCallResult`,
lines 35-57) -/
/-- Embeds `rawStr.replace(/\0/g, '')`. -/
def clearNullBytes (rawStr : String) : String :=
  String.mk (rawStr.data.filter (fun c => c ≠ Char.ofNat 0))

/-- JS `\d`. -/
def jsIsDigit (c : Char) : Bool := '0' ≤ c && c ≤ '9'

/-- JS `\w` = `[A-Za-z0-9_]`. -/
def jsIsWordChar (c : Char) : Bool :=
  ('a' ≤ c && c ≤ 'z') || ('A' ≤ c && c ≤ 'Z') || ('0' ≤ c && c ≤ '9') ||
    c = '_'

/-- The character class `[\d|\w]` of the sentinel regex: a digit, a literal
pipe, or a word character. -/
def sentinelClassChar (c : Char) : Bool :=
  jsIsDigit c || c = '|' || jsIsWordChar c

/-- The anchored regex `^\d{10}\.[\d|\w]{4}$` as the language it denotes:
exactly 10 digits, a dot, then exactly 4 `[\d|\w]` characters. -/
def sentinelRegexTest (s : String) : Bool :=
  let cs := s.data
  cs.length == 15 && (cs.take 10).all jsIsDigit &&
    (cs.drop 10).take 1 == ['.'] && ((cs.drop 11).all sentinelClassChar)

/-- src/src/mappings/erc20.ts lines 43-57.  An absent (`null`) or empty
result is `null`; a result matching the sentinel regex is `null`; anything
else is returned with its null bytes stripped. -/
def getDecoratedCallResult (rawValue : Option String) : Option String :=
  match rawValue with
  | none => none
  | some s =>
      if s = "" then none
      else if sentinelRegexTest s then none
      else some (clearNullBytes s)

/-! ### On-chain read oracle and enrichment
(src/src/mappings/tokens/utils / erc20.ts `getTokenDetails`)

The read-call transport is an external collaborator; its raw per-field
results (already `null` on failure or timeout, since every field read is
wrapped in its own try/catch with timeout) are supplied by a `ChainOracle`. -/
structure TokenDetails where
  name : Option String
  symbol : Option String
  decimals : Option Int
  uri : Option String
deriving DecidableEq, Repr

structure ChainOracle where
  /-- Raw results of the independent `name()/symbol()/decimals()/uri()` reads
  for (contract address, standard, optional native token id); `none` encodes
  a failed or absent read. -/
  rawDetails : String → ContractStandard → Option String → TokenDetails
  /-- Modelled from the spec: `getTokenBalanceOf` (imported by
  `AccountFTokenBalancesManager.getOrCreate` from src/mappings/tokens/utils,
  a module absent from src/) performs the live on-chain `balanceOf` read
  used to bootstrap a balance row. -/
  balanceOf : String → String → Int

/-- Embeds `getTokenDetails` (src/src/mappings/erc20.ts lines 59-144): name and
symbol pass through `getDecoratedCallResult`, uri through `clearNullBytes`,
decimals is passed through raw. -/
def getTokenDetails (o : ChainOracle) (contractAddress : String)
    (contractStandard : ContractStandard) (tokenId : Option String) :
    TokenDetails :=
  let raw := o.rawDetails contractAddress contractStandard tokenId
  { name := getDecoratedCallResult raw.name
    symbol := getDecoratedCallResult raw.symbol
    decimals := raw.decimals
    uri := raw.uri.map clearNullBytes }

/-! ### Entity creators -/
/-- Embeds `createAccount` (src/mappings/accounts; the normalized Account model has
only the id column, its other fields are relation back-references). -/
def createAccount (id : String) : Account := { id := id }

/-- Embeds `createFToken` (src/src/mappings/erc20.ts lines 149-170). -/
def createFToken (o : ChainOracle) (contractAddress : String)
    (contractStandard : ContractStandard) : FToken :=
  let d := getTokenDetails o contractAddress contractStandard none
  { id := contractAddress
    name := d.name
    symbol := d.symbol
    decimals := d.decimals }

/-- Ambient block/event context bound by `BlockContextManager` before each
event is dispatched. -/
structure EventCtx where
  eventId : String
  /-- Embeds `event.args.address`: the emitting contract address. -/
  address : String
  indexInBlock : Nat
  evmTxHash : String
  blockHeight : Nat
  timestamp : Nat
deriving DecidableEq, Repr

/-- Embeds `createCollection` (src/src/mappings/collections, shown in
src/src/mappings/contracts/erc20.ts part). -/
def createCollection (ev : EventCtx) (id : String)
    (contractStandard : ContractStandard) : Collection :=
  { id := id
    collectionType := contractStandard
    createdAtBlock := Int.ofNat ev.blockHeight
    createdAt := ev.timestamp }

/-- Embeds `createAccountFTokenBalances`
(src/src/mappings/accountFTokenBalances/accountFTokenBalances.ts lines 5-24). -/
def createAccountFTokenBalances (ev : EventCtx) (account : Account)
    (token : FToken) (amount : Int) : AccountFTokenBalance :=
  { id := getAccountFTokenBalanceEntityId account.id token.id
    token := token
    account := account
    amount := amount
    updatedAt := ev.timestamp
    updatedAtBlock := Int.ofNat ev.blockHeight }

/-- Embeds `createAccountFtTransfer` (src/src/mappings/accountTransfer, given as
src/unnamed/part_000). -/
def createAccountFtTransfer (account : Account) (transfer : FtTransfer)
    (direction : TransferDirection) : AccountFtTransfer :=
  { id := getAccountTransferEntityId account.id transfer.id
    transfer := transfer
    account := account
    direction := direction }

/-- Embeds `createAccountNftTransfer` (src/unnamed/part_000). -/
def createAccountNftTransfer (account : Account) (transfer : NftTransfer)
    (direction : TransferDirection) : AccountNftTransfer :=
  { id := getAccountTransferEntityId account.id transfer.id
    transfer := transfer
    account := account
    direction := direction }

/-- Embeds `createUriUpdateActions`
(src/src/mappings/uriUpdateActions/uriUpdateActions.ts lines 6-29). -/
def createUriUpdateActions (ev : EventCtx) (id : String) (token : NfToken)
    (newValue oldValue : Option String) : UriUpdateAction :=
  { id := id
    token := token
    newValue := newValue
    oldValue := oldValue
    timestamp := ev.timestamp
    blockNumber := Int.ofNat ev.blockHeight
    txnHash := ev.evmTxHash }

/-! ### The Entity Cache / Unit-of-Work
(`EntitiesManager`, src/unnamed/part_005)

`context` bound/unbound is the `inited` flag; every operation that reads
`this.context` first throws `'context is not defined'` when it is unbound. -/
structure Mgr (E : Type) where
  inited : Bool
  cache : SMap E
  prefetchIds : List String
deriving DecidableEq, Repr

def Mgr.start {E : Type} : Mgr E := { inited := false, cache := [], prefetchIds := [] }

/-- Embeds `init(ctx)`. -/
def mgrInit {E : Type} (m : Mgr E) : Mgr E := { m with inited := true }

/-- Embeds `add(entity)`: keyed by the entity's own id; no init check, no I/O. -/
def mgrAdd {E : Type} (idOf : E → String) (m : Mgr E) (e : E) : Mgr E :=
  { m with cache := smapSet m.cache (idOf e) e }

/-- Embeds `addPrefetchItemId(itemIdOrList)`: push onto the prefetch list; a single
id is embedded as a one-element list.  No init check. -/
def mgrAddPrefetchItemId {E : Type} (m : Mgr E) (ids : List String) : Mgr E :=
  { m with prefetchIds := m.prefetchIds ++ ids }

/-- Embeds `get(id)`: cached instance, else one durable-store get by id (the query
log names the id); a miss does not insert anything. -/
def mgrGet {E : Type} (store : String → Option E) (m : Mgr E) (id : String) :
    Except String (Option E × List String) :=
  if m.inited = false then Except.error "context is not defined"
  else
    match smapFind m.cache id with
    | some item => Except.ok (some item, [])
    | none => Except.ok (store id, [id])

/-- Embeds `prefetchEntities(relations?)`: no-op on an empty prefetch list, else one
bulk `find` per 1000-id chunk (the query log names each id the chunk's
`where` clause carries, each chunk once), caching every found entity, then
clearing the prefetch list. -/
def mgrPrefetchEntities {E : Type} (store : String → Option E)
    (idOf : E → String) (m : Mgr E) : Except String (Mgr E × List String) :=
  if m.inited = false then Except.error "context is not defined"
  else if m.prefetchIds.isEmpty then Except.ok (m, [])
  else
    let chunks := splitIntoBatches 1000 m.prefetchIds
    let m' := chunks.foldl
      (fun acc chunk =>
        (chunk.filterMap store).foldl (fun a e => mgrAdd idOf a e) acc) m
    Except.ok ({ m' with prefetchIds := [] },
      (chunks.map List.dedup).flatten)

/-- Embeds `saveAll()`: one bulk save of every cached entity (returned here as the
persisted list), then clear the cache. -/
def mgrSaveAll {E : Type} (m : Mgr E) : Except String (List E × Mgr E) :=
  if m.inited = false then Except.error "context is not defined"
  else Except.ok (m.cache.map Prod.snd, { m with cache := [] })

/-! ### Per-kind managers (src/src/mappings/utils/classes) -/
/-- Embeds `AccountsManager.getOrCreate`
(src/src/mappings/utils/classes/account.ts lines 10-20). -/
def accountsGetOrCreate (store : String → Option Account) (m : Mgr Account)
    (id : String) : Except String (Account × Mgr Account × List String) :=
  if m.inited = false then Except.error "context is not defined"
  else do
    let (acc?, qs) ← mgrGet store m id
    let account :=
      match acc? with
      | none => createAccount id
      | some a => a
    Except.ok (account, mgrAdd Account.id m account, qs)

/-- Embeds `FTokenManager.getOrCreate`
(src/src/mappings/utils/classes/token.ts lines 23-51), translated branch by
branch.  Note the source's `else if` re-enrichment arm: its guard
`token && (!token.name || !token.symbol)` is already covered by the first
arm's `!token || (token && (!token.name || !token.symbol))`, so it is
unreachable; it is kept here verbatim. -/
def fTokenGetOrCreate (o : ChainOracle) (store : String → Option FToken)
    (m : Mgr FToken) (contractAddress : String)
    (contractStandard : ContractStandard) :
    Except String (FToken × Mgr FToken × List String) :=
  if m.inited = false then Except.error "context is not defined"
  else do
    let (tk?, qs) ← mgrGet store m contractAddress
    let token :=
      match tk? with
      | none => createFToken o contractAddress contractStandard
      | some tk =>
          if tk.name.isNone || tk.symbol.isNone then
            createFToken o contractAddress contractStandard
          else if tk.name.isNone || tk.symbol.isNone then
            -- source lines 39-47 (dead code): patch name/symbol only
            let d := getTokenDetails o contractAddress contractStandard none
            { tk with name := d.name, symbol := d.symbol }
          else tk
    Except.ok (token, mgrAdd FToken.id m token, qs)

/-- Embeds `CollectionManager.getOrCreate`
(src/src/mappings/utils/classes/collection.ts). -/
def collectionGetOrCreate (ev : EventCtx)
    (store : String → Option Collection) (m : Mgr Collection) (id : String)
    (contractStandard : ContractStandard) :
    Except String (Collection × Mgr Collection × List String) :=
  if m.inited = false then Except.error "context is not defined"
  else do
    let (col?, qs) ← mgrGet store m id
    let collection :=
      match col? with
      | none => createCollection ev id contractStandard
      | some c => c
    Except.ok (collection, mgrAdd Collection.id m collection, qs)

/-- Embeds `createNfToken` (src/src/mappings/tokens/nfTokens.ts lines 8-46): reads
details (with the native token id, so the uri is attempted) and resolves the
Collection through its manager. -/
def createNfToken (o : ChainOracle) (ev : EventCtx)
    (colStore : String → Option Collection) (cols : Mgr Collection)
    (id : String) (nativeId : Nat) (contractAddress : String)
    (contractStandard : ContractStandard) (owner : Account) :
    Except String (NfToken × Mgr Collection) := do
  let d := getTokenDetails o contractAddress contractStandard
    (some (Nat.repr nativeId))
  let (collection, cols', _) ←
    collectionGetOrCreate ev colStore cols contractAddress contractStandard
  Except.ok
    ({ nativeId := Nat.repr nativeId
       currentOwner := owner
       isBurned := false
       amount := 0
       id := id
       name := d.name
       symbol := d.symbol
       uri := d.uri
       collection := collection }, cols')

/-- Embeds `NfTokenManager.getOrCreate`
(src/src/mappings/utils/classes/token.ts lines 62-95): an absent token, or a
token found with a null name or symbol, is (re)created from scratch. -/
def nfTokenGetOrCreate (o : ChainOracle) (ev : EventCtx)
    (nftStore : String → Option NfToken)
    (colStore : String → Option Collection) (m : Mgr NfToken)
    (cols : Mgr Collection) (nativeId : Nat) (contractAddress : String)
    (contractStandard : ContractStandard) (owner : Account) :
    Except String (NfToken × Mgr NfToken × Mgr Collection) :=
  if m.inited = false then Except.error "context is not defined"
  else do
    let tokenEntityId := getTokenEntityId contractAddress (some (Nat.repr nativeId))
    let (tk?, _) ← mgrGet nftStore m tokenEntityId
    let (token, cols') ←
      match tk? with
      | none =>
          createNfToken o ev colStore cols tokenEntityId nativeId
            contractAddress contractStandard owner
      | some tk =>
          if tk.name.isNone || tk.symbol.isNone then
            createNfToken o ev colStore cols tokenEntityId nativeId
              contractAddress contractStandard owner
          else Except.ok (tk, cols)
    Except.ok (token, mgrAdd NfToken.id m token, cols')

/-- Embeds `UriUpdateActionsManager.getOrCreate` (src/unnamed/part_008). -/
def uriUpdateActionsGetOrCreate (ev : EventCtx)
    (store : String → Option UriUpdateAction) (m : Mgr UriUpdateAction)
    (id : String) (token : NfToken) (newValue oldValue : Option String) :
    Except String (UriUpdateAction × Mgr UriUpdateAction) :=
  if m.inited = false then Except.error "context is not defined"
  else do
    let (ua?, _) ← mgrGet store m id
    let uriUpdateAction :=
      match ua? with
      | none => createUriUpdateActions ev id token newValue oldValue
      | some ua => ua
    Except.ok (uriUpdateAction, mgrAdd UriUpdateAction.id m uriUpdateAction)

/-- Embeds `AccountsFtTransferManager.getOrCreate` (src/unnamed/part_003 lines
15-37); every call site passes no id, so the lookup is skipped and the join
row is created and cached directly. -/
def accountsFtTransferGetOrCreate (store : String → Option AccountFtTransfer)
    (m : Mgr AccountFtTransfer) (id? : Option String) (account : Account)
    (transfer : FtTransfer) (direction : TransferDirection) :
    Except String (AccountFtTransfer × Mgr AccountFtTransfer) :=
  if m.inited = false then Except.error "context is not defined"
  else do
    let cached :=
      match id? with
      | some i =>
          match smapFind m.cache i with
          | some a => some a
          | none => store i
      | none => none
    let accountTransfer :=
      match cached with
      | some a => a
      | none => createAccountFtTransfer account transfer direction
    Except.ok (accountTransfer, mgrAdd AccountFtTransfer.id m accountTransfer)

/-- Embeds `AccountsNftTransferManager.getOrCreate` (src/unnamed/part_003 lines
39-70): a cache hit returns without re-adding; otherwise store-lookup (only
with an id), create on miss, and cache. -/
def accountsNftTransferGetOrCreate
    (store : String → Option AccountNftTransfer)
    (m : Mgr AccountNftTransfer) (id? : Option String) (account : Account)
    (transfer : NftTransfer) (direction : TransferDirection) :
    Except String (AccountNftTransfer × Mgr AccountNftTransfer) :=
  if m.inited = false then Except.error "context is not defined"
  else
    let cached := match id? with
      | some i => smapFind m.cache i
      | none => none
    match cached with
    | some a => Except.ok (a, m)
    | none =>
        let fromStore := match id? with
          | some i => store i
          | none => none
        let accountTransfer :=
          match fromStore with
          | some a => a
          | none => createAccountNftTransfer account transfer direction
        Except.ok (accountTransfer, mgrAdd AccountNftTransfer.id m accountTransfer)

/-- Embeds `AccountFTokenBalancesManager.getOrCreate`
(src/src/mappings/utils/classes/accountFTokenBalance.ts lines 63-93): lookup
by id when one is given; on a miss, create the row with the live on-chain
balance read. -/
def accountFTokenBalanceGetOrCreate (o : ChainOracle) (ev : EventCtx)
    (store : String → Option AccountFTokenBalance)
    (m : Mgr AccountFTokenBalance) (id? : Option String) (account : Account)
    (token : FToken) (contractAddress : String) :
    Except String (AccountFTokenBalance × List String) :=
  if m.inited = false then Except.error "context is not defined"
  else do
    let (bal?, qs) ←
      match id? with
      | some i => mgrGet store m i
      | none => Except.ok (none, [])
    let accountFTokenBalance :=
      match bal? with
      | none =>
          createAccountFTokenBalances ev account token
            (o.balanceOf account.id contractAddress)
      | some b => b
    Except.ok (accountFTokenBalance, qs)

/-- Embeds `AccountFTokenBalancesManager.updateFTokenBalance`
(src/src/mappings/utils/classes/accountFTokenBalance.ts lines 18-61): an
existing row is adjusted incrementally by the action; a missing row is
created via `getOrCreate` (which bootstraps the amount from the live
balance read and ignores the action); the result is cached. -/
def updateFTokenBalance (o : ChainOracle) (ev : EventCtx)
    (store : String → Option AccountFTokenBalance)
    (m : Mgr AccountFTokenBalance) (account : Account) (token : FToken)
    (contractAddress : String) (amount : Int)
    (action : FTokenBalanceAction) :
    Except String (Mgr AccountFTokenBalance) := do
  let accountBalanceId := getAccountFTokenBalanceEntityId account.id token.id
  let (existing?, _) ← mgrGet store m accountBalanceId
  let existingAccountBalance ←
    match existing? with
    | none => do
        let (b, _) ← accountFTokenBalanceGetOrCreate o ev store m
          (some accountBalanceId) account token contractAddress
        Except.ok b
    | some b =>
        Except.ok
          (match action with
           | FTokenBalanceAction.add => { b with amount := b.amount + amount }
           | FTokenBalanceAction.sub => { b with amount := b.amount - amount })
  Except.ok (mgrAdd AccountFTokenBalance.id m existingAccountBalance)

/-! ### Batch-scoped processing state (the module-level manager singletons
of src/src/mappings/utils/entityUtils.ts) and durable-store handles -/
structure ProcState where
  accounts : Mgr Account
  fTokens : Mgr FToken
  nfTokens : Mgr NfToken
  collections : Mgr Collection
  ftTransfers : Mgr FtTransfer
  nftTransfers : Mgr NftTransfer
  accountFtTransfers : Mgr AccountFtTransfer
  accountNftTransfers : Mgr AccountNftTransfer
  accountFTokenBalances : Mgr AccountFTokenBalance
  uriActions : Mgr UriUpdateAction
deriving DecidableEq, Repr

structure Stores where
  accounts : String → Option Account
  fTokens : String → Option FToken
  nfTokens : String → Option NfToken
  collections : String → Option Collection
  ftTransfers : String → Option FtTransfer
  nftTransfers : String → Option NftTransfer
  accountFtTransfers : String → Option AccountFtTransfer
  accountNftTransfers : String → Option AccountNftTransfer
  accountFTokenBalances : String → Option AccountFTokenBalance
  uriActions : String → Option UriUpdateAction

/-- Embeds `initAllEntityManagers(ctx)`. -/
def initAllEntityManagers (s : ProcState) : ProcState :=
  { accounts := mgrInit s.accounts
    fTokens := mgrInit s.fTokens
    nfTokens := mgrInit s.nfTokens
    collections := mgrInit s.collections
    ftTransfers := mgrInit s.ftTransfers
    nftTransfers := mgrInit s.nftTransfers
    accountFtTransfers := mgrInit s.accountFtTransfers
    accountNftTransfers := mgrInit s.accountNftTransfers
    accountFTokenBalances := mgrInit s.accountFTokenBalances
    uriActions := mgrInit s.uriActions }

/-! ### Transfer managers (src/src/mappings/utils/classes/token.ts,
transfers part, lines 117-222) -/
/-- Embeds `FtTransferManager.getOrCreate` (lines 118-153): resolve both accounts,
resolve the FToken for the emitting contract, build the FtTransfer keyed by
the event id, cache it. -/
def ftTransferGetOrCreate (o : ChainOracle) (st : Stores) (ev : EventCtx)
    (s : ProcState) (from_ to_ : String) (amount : Int) :
    Except String (FtTransfer × ProcState) := do
  let (fromAccount, accs1, _) ← accountsGetOrCreate st.accounts s.accounts from_
  let (toAccount, accs2, _) ← accountsGetOrCreate st.accounts accs1 to_
  let (token, fts1, _) ←
    fTokenGetOrCreate o st.fTokens s.fTokens ev.address ContractStandard.ERC20
  let transfer : FtTransfer :=
    { id := ev.eventId
      blockNumber := Int.ofNat ev.blockHeight
      timestamp := ev.timestamp
      eventIndex := ev.indexInBlock
      txnHash := ev.evmTxHash
      from_ := fromAccount
      to_ := toAccount
      token := token
      amount := amount
      transferType := getTransferType from_ to_ }
  Except.ok (transfer,
    { s with
        accounts := accs2
        fTokens := fts1
        ftTransfers := mgrAdd FtTransfer.id s.ftTransfers transfer })

/-- Embeds `NftTransferManager.getOrCreate` (lines 158-221): resolve the accounts
and the NfToken (owner argument = the receiving account), recompute the
token's running amount by `getTokenTotalSupply` and its `isBurned` status
(ERC721: burned iff the transfer classifies as BURN; otherwise
`getTokenBurnedStatus` of the new amount), re-cache the token, then build
and cache the NftTransfer keyed by `<eventId>-<tokenId>`. -/
def nftTransferGetOrCreate (o : ChainOracle) (st : Stores) (ev : EventCtx)
    (s : ProcState) (from_ to_ : String) (operator? : Option String)
    (amount : Int) (tokenId : Nat) (isBatch : Bool)
    (contractStandard : ContractStandard) :
    Except String (NftTransfer × ProcState) := do
  let (fromAccount, accs1, _) ← accountsGetOrCreate st.accounts s.accounts from_
  let (toAccount, accs2, _) ← accountsGetOrCreate st.accounts accs1 to_
  let (operatorAccount, accs3) ←
    match operator? with
    | some op => do
        let (a, m, _) ← accountsGetOrCreate st.accounts accs2 op
        Except.ok (some a, m)
    | none => Except.ok ((none : Option Account), accs2)
  let (token0, nfts1, cols1) ←
    nfTokenGetOrCreate o ev st.nfTokens st.collections s.nfTokens
      s.collections tokenId ev.address contractStandard toAccount
  let transferType := getTransferType from_ to_
  let newAmount := getTokenTotalSupply token0.amount amount transferType
  let token :=
    { token0 with
        amount := newAmount
        isBurned :=
          if contractStandard = ContractStandard.ERC721 then
            transferType = TransferType.BURN
          else getTokenBurnedStatus newAmount }
  let nfts2 := mgrAdd NfToken.id nfts1 token
  let transfer : NftTransfer :=
    { id := getNftTransferEntityId ev.eventId (Nat.repr tokenId)
      blockNumber := Int.ofNat ev.blockHeight
      timestamp := ev.timestamp
      eventIndex := ev.indexInBlock
      txnHash := ev.evmTxHash
      amount := amount
      from_ := fromAccount
      to_ := toAccount
      operator := operatorAccount
      transferType := transferType
      token := token
      isBatch := isBatch }
  Except.ok (transfer,
    { s with
        accounts := accs3
        nfTokens := nfts2
        collections := cols1
        nftTransfers := mgrAdd NftTransfer.id s.nftTransfers transfer })

/-! ### Decoded event payloads.  ABI decoding by the generated decoders can
throw on a shape mismatch; a decode outcome is embedded as an `Option`
payload (`none` = the decoder threw). -/
structure Erc20TransferPayload where
  from_ : String
  to_ : String
  value : Int
deriving DecidableEq, Repr

structure Erc721TransferPayload where
  from_ : String
  to_ : String
  tokenId : Nat
deriving DecidableEq, Repr

structure Erc1155TransferSinglePayload where
  operator : String
  from_ : String
  to_ : String
  id : Nat
  value : Int
deriving DecidableEq, Repr

structure Erc1155TransferBatchPayload where
  operator : String
  from_ : String
  to_ : String
  ids : List Nat
  values : List Int
deriving DecidableEq, Repr

structure Erc1155UriPayload where
  value : String
  id : Nat
deriving DecidableEq, Repr

/-! ### Event resolvers -/
/-- Embeds `handleErc20Transfer` (src/src/mappings/transfers/ftTransfers/erc20.ts
lines 6-48): create the FtTransfer, the From join row, subtract the amount
from the sender's balance row, the To join row, add the amount to the
receiver's balance row. -/
def handleErc20Transfer (o : ChainOracle) (st : Stores) (ev : EventCtx)
    (s : ProcState) (decoded : Option Erc20TransferPayload) :
    Except String ProcState := do
  match decoded with
  | none => Except.error "erc20 decode failed"
  | some p => do
      let (transfer, s1) ←
        ftTransferGetOrCreate o st ev s p.from_ p.to_ p.value
      let (_, aft1) ←
        accountsFtTransferGetOrCreate st.accountFtTransfers
          s1.accountFtTransfers none transfer.from_ transfer
          TransferDirection.From
      let s2 := { s1 with accountFtTransfers := aft1 }
      let bal1 ←
        updateFTokenBalance o ev st.accountFTokenBalances
          s2.accountFTokenBalances transfer.from_ transfer.token ev.address
          p.value FTokenBalanceAction.sub
      let s3 := { s2 with accountFTokenBalances := bal1 }
      let (_, aft2) ←
        accountsFtTransferGetOrCreate st.accountFtTransfers
          s3.accountFtTransfers none transfer.to_ transfer
          TransferDirection.To
      let s4 := { s3 with accountFtTransfers := aft2 }
      let bal2 ←
        updateFTokenBalance o ev st.accountFTokenBalances
          s4.accountFTokenBalances transfer.to_ transfer.token ev.address
          p.value FTokenBalanceAction.add
      Except.ok { s4 with accountFTokenBalances := bal2 }

/-- Embeds `handleErc721Transfer` (src/src/mappings/tokens part of
accountFTokenBalances.ts listing, lines 101-128): amount 1, no operator. -/
def handleErc721Transfer (o : ChainOracle) (st : Stores) (ev : EventCtx)
    (s : ProcState) (decoded : Option Erc721TransferPayload) :
    Except String ProcState := do
  match decoded with
  | none => Except.error "erc721 decode failed"
  | some p => do
      let (transfer, s1) ←
        nftTransferGetOrCreate o st ev s p.from_ p.to_ none 1 p.tokenId false
          ContractStandard.ERC721
      let (_, ant1) ←
        accountsNftTransferGetOrCreate st.accountNftTransfers
          s1.accountNftTransfers none transfer.from_ transfer
          TransferDirection.From
      let s2 := { s1 with accountNftTransfers := ant1 }
      let (_, ant2) ←
        accountsNftTransferGetOrCreate st.accountNftTransfers
          s2.accountNftTransfers none transfer.to_ transfer
          TransferDirection.To
      Except.ok { s2 with accountNftTransfers := ant2 }

/-- Embeds `handleErc1155TransferSingle`
(src/src/mappings/accountFTokenBalances/accountFTokenBalances.ts lines
29-63). -/
def handleErc1155TransferSingle (o : ChainOracle) (st : Stores)
    (ev : EventCtx) (s : ProcState)
    (decoded : Option Erc1155TransferSinglePayload) :
    Except String ProcState := do
  match decoded with
  | none => Except.error "erc1155 decode failed"
  | some p => do
      let (transfer, s1) ←
        nftTransferGetOrCreate o st ev s p.from_ p.to_ (some p.operator)
          p.value p.id false ContractStandard.ERC1155
      let (_, ant1) ←
        accountsNftTransferGetOrCreate st.accountNftTransfers
          s1.accountNftTransfers none transfer.from_ transfer
          TransferDirection.From
      let s2 := { s1 with accountNftTransfers := ant1 }
      let (_, ant2) ←
        accountsNftTransferGetOrCreate st.accountNftTransfers
          s2.accountNftTransfers none transfer.to_ transfer
          TransferDirection.To
      Except.ok { s2 with accountNftTransfers := ant2 }

/-- The loop body of `handleErc1155TransferBatch` (lines 72-94): one derived
transfer plus its two join rows per `(ids[i], values[i])` pair; a missing
value (shorter `values` array) would make `BigNumber.from(undefined)` throw
in the source. -/
def transferBatchLoop (o : ChainOracle) (st : Stores) (ev : EventCtx)
    (operator from_ to_ : String) :
    ProcState → List Nat → List Int → Except String ProcState
  | s, [], _ => Except.ok s
  | _, _ :: _, [] => Except.error "invalid BigNumber value"
  | s, tid :: tids, v :: vs => do
      let (transfer, s1) ←
        nftTransferGetOrCreate o st ev s from_ to_ (some operator) v tid true
          ContractStandard.ERC1155
      let (_, ant1) ←
        accountsNftTransferGetOrCreate st.accountNftTransfers
          s1.accountNftTransfers none transfer.from_ transfer
          TransferDirection.From
      let s2 := { s1 with accountNftTransfers := ant1 }
      let (_, ant2) ←
        accountsNftTransferGetOrCreate st.accountNftTransfers
          s2.accountNftTransfers none transfer.to_ transfer
          TransferDirection.To
      let s3 := { s2 with accountNftTransfers := ant2 }
      transferBatchLoop o st ev operator from_ to_ s3 tids vs

/-- Embeds `handleErc1155TransferBatch` (lines 65-95). -/
def handleErc1155TransferBatch (o : ChainOracle) (st : Stores)
    (ev : EventCtx) (s : ProcState)
    (decoded : Option Erc1155TransferBatchPayload) :
    Except String ProcState := do
  match decoded with
  | none => Except.error "erc1155 decode failed"
  | some p =>
      transferBatchLoop o st ev p.operator p.from_ p.to_ s p.ids p.values

/-- Embeds `handleErc1155UriChanged`
(src/src/mappings/uriUpdateActions/uriUpdateActions.ts lines 31-59): the
NfToken must already exist (`throw new Error('Token is not existing.')`
otherwise); its uri is mutated in place after the old value (empty string
treated as null by `token.uri || null`) is captured in a UriUpdateAction
audit row. -/
def handleErc1155UriChanged (o : ChainOracle) (st : Stores) (ev : EventCtx)
    (s : ProcState) (decoded : Option Erc1155UriPayload) :
    Except String ProcState := do
  match decoded with
  | none => Except.error "erc1155 uri decode failed"
  | some p => do
      let (tk?, _) ← mgrGet st.nfTokens s.nfTokens
        (getTokenEntityId ev.address (some (Nat.repr p.id)))
      match tk? with
      | none => Except.error "Token is not existing."
      | some token0 => do
          let oldUriVal :=
            match token0.uri with
            | some u => if u = "" then none else some u
            | none => none
          let token := { token0 with uri := some p.value }
          let (_, ua1) ←
            uriUpdateActionsGetOrCreate ev st.uriActions s.uriActions
              ev.eventId token (some p.value) oldUriVal
          Except.ok
            { s with
                uriActions := ua1
                nfTokens := mgrAdd NfToken.id s.nfTokens token }

/-! ### Batch orchestrator (src/src/processor.ts lines 42-84) -/
/-- One log item of a batch: the ambient context plus the topic dispatch
outcome.  For the shared ERC20/ERC721 `Transfer` topic both decode outcomes
travel with the item (the source decodes the same raw args twice, relying on
a decoder throw for disambiguation). -/
inductive LogItem
  | transferTopic (erc20 : Option Erc20TransferPayload)
      (erc721 : Option Erc721TransferPayload)
  | transferBatch (p : Erc1155TransferBatchPayload)
  | transferSingle (p : Erc1155TransferSinglePayload)
  | uriEvent (p : Erc1155UriPayload)
  | otherTopic
deriving Repr

structure BatchItem where
  ctx : EventCtx
  item : LogItem
deriving Repr

/-- The PROCESSING-phase dispatch for one event (processor.ts lines 50-77).
Only the shared `Transfer` topic is guarded by try/catch: an ERC20 handler
throw falls back to the ERC721 handler, whose own throw is swallowed (its
logging is commented out in the source).  The three ERC1155 handlers are
dispatched without any try/catch. -/
def processItem (o : ChainOracle) (st : Stores) (s : ProcState)
    (bi : BatchItem) : Except String ProcState :=
  match bi.item with
  | LogItem.transferTopic d20 d721 =>
      match handleErc20Transfer o st bi.ctx s d20 with
      | Except.ok s' => Except.ok s'
      | Except.error _ =>
          match handleErc721Transfer o st bi.ctx s d721 with
          | Except.ok s' => Except.ok s'
          | Except.error _ => Except.ok s
  | LogItem.transferBatch p => handleErc1155TransferBatch o st bi.ctx s (some p)
  | LogItem.transferSingle p =>
      handleErc1155TransferSingle o st bi.ctx s (some p)
  | LogItem.uriEvent p => handleErc1155UriChanged o st bi.ctx s (some p)
  | LogItem.otherTopic => Except.ok s

/-- The PROCESSING loop over the batch's items (blocks in order, events in
order).  An uncaught handler error aborts the whole run. -/
def runProcessing (o : ChainOracle) (st : Stores) :
    ProcState → List BatchItem → Except String ProcState
  | s, [] => Except.ok s
  | s, bi :: rest => do
      let s' ← processItem o st s bi
      runProcessing o st s' rest

/-- Cache-or-store lookup value: what `EntitiesManager.get` returns when the
manager is initialized. -/
def lookupEither {E : Type} (store : String → Option E) (m : Mgr E)
    (id : String) : Option E :=
  match smapFind m.cache id with
  | some e => some e
  | none => store id

/-- The query log `EntitiesManager.get` produces. -/
def getQueries {E : Type} (m : Mgr E) (id : String) : List String :=
  match smapFind m.cache id with
  | some _ => []
  | none => [id]

/-- Store/cache well-formedness: every entity sits under its own id. -/
def storeWF {E : Type} (idOf : E → String) (store : String → Option E) : Prop :=
  ∀ k e, store k = some e → idOf e = k

def cacheWF {E : Type} (idOf : E → String) (m : Mgr E) : Prop :=
  ∀ k e, smapFind m.cache k = some e → idOf e = k

/-! ### Resolution mirrors: the value each `getOrCreate` returns, as a pure
function, with characterization lemmas connecting them to the operations. -/
def resolveAccount (store : String → Option Account) (m : Mgr Account)
    (id : String) : Account :=
  match lookupEither store m id with
  | some a => a
  | none => createAccount id

def resolveFToken (o : ChainOracle) (store : String → Option FToken)
    (m : Mgr FToken) (contractAddress : String)
    (contractStandard : ContractStandard) : FToken :=
  match lookupEither store m contractAddress with
  | none => createFToken o contractAddress contractStandard
  | some tk =>
      if tk.name.isNone || tk.symbol.isNone then
        createFToken o contractAddress contractStandard
      else tk

/-- The token value that `NftTransferManager.getOrCreate` writes back for an
already-present token: only `amount` and `isBurned` change. -/
def nftTransferTokenUpdate (tk : NfToken) (amount : Int)
    (from_ to_ : String) (contractStandard : ContractStandard) : NfToken :=
  let transferType := getTransferType from_ to_
  let newAmount := getTokenTotalSupply tk.amount amount transferType
  { tk with
      amount := newAmount
      isBurned :=
        if contractStandard = ContractStandard.ERC721 then
          transferType = TransferType.BURN
        else getTokenBurnedStatus newAmount }

/-- The derived transfer id of one `TransferBatch` pair. -/
def derivedTransferId (eventId : String) (t : Nat) : String :=
  getNftTransferEntityId eventId (Nat.repr t)

/-- The incremental adjustment `updateFTokenBalance` applies to an existing
balance row. -/
def fTokenBalanceAdjust (b : AccountFTokenBalance) (amount : Int)
    (action : FTokenBalanceAction) : AccountFTokenBalance :=
  match action with
  | FTokenBalanceAction.add => { b with amount := b.amount + amount }
  | FTokenBalanceAction.sub => { b with amount := b.amount - amount }

/-- The FtTransfer record `FtTransferManager.getOrCreate` builds. -/
def ftTransferResolved (o : ChainOracle) (st : Stores) (ev : EventCtx)
    (s : ProcState) (from_ to_ : String) (amount : Int) : FtTransfer :=
  { id := ev.eventId
    blockNumber := Int.ofNat ev.blockHeight
    timestamp := ev.timestamp
    eventIndex := ev.indexInBlock
    txnHash := ev.evmTxHash
    from_ := resolveAccount st.accounts s.accounts from_
    to_ := resolveAccount st.accounts
      (mgrAdd Account.id s.accounts (resolveAccount st.accounts s.accounts from_)) to_
    token := resolveFToken o st.fTokens s.fTokens ev.address
      ContractStandard.ERC20
    amount := amount
    transferType := getTransferType from_ to_ }

/-- The PROCESSING-phase reference pattern of the at-most-one-fetch claim:
a sequence of `AccountsManager.getOrCreate` calls, with the concatenated
store-query log. -/
def accountsRun (store : String → Option Account) :
    Mgr Account → List String → Mgr Account × List String
  | m, [] => (m, [])
  | m, id :: rest =>
      match accountsGetOrCreate store m id with
      | Except.ok (_, m', qs) =>
          let r := accountsRun store m' rest
          (r.1, qs ++ r.2)
      | Except.error _ => (m, [])

/-- One whole batch of the accounts manager, as the at-most-one-fetch claim
describes it: a fresh initialized manager, the prefetch ids collected by the
pre-pass, one `prefetchEntities` call, then the processing-phase
`getOrCreate` sequence.  Result: final manager, prefetch-phase query log,
processing-phase query log. -/
def accountsBatchRun (store : String → Option Account)
    (prefetchIds procIds : List String) :
    Mgr Account × List String × List String :=
  let m1 := mgrAddPrefetchItemId (mgrInit Mgr.start) prefetchIds
  match mgrPrefetchEntities store Account.id m1 with
  | Except.ok (m2, plog) =>
      let r := accountsRun store m2 procIds
      (r.1, plog, r.2)
  | Except.error _ => (m1, [], [])

/-- The sentinel pattern, index-wise, with the character class the source
regex actually uses (`[\d|\w]`: word characters and the literal pipe). -/
def specSentinelAmended (s : String) : Prop :=
  s.data.length = 15 ∧
  (∀ i, i < 10 → Option.any jsIsDigit (s.data.get? i) = true) ∧
  s.data.get? 10 = some '.' ∧
  (∀ i, 11 ≤ i → i < 15 → Option.any sentinelClassChar (s.data.get? i) = true)

instance (s : String) : Decidable (specSentinelAmended s) := by
  unfold specSentinelAmended
  infer_instance

/-! ### Concrete fixtures for closed runs -/
def emptyStores : Stores :=
  { accounts := fun _ => none
    fTokens := fun _ => none
    nfTokens := fun _ => none
    collections := fun _ => none
    ftTransfers := fun _ => none
    nftTransfers := fun _ => none
    accountFtTransfers := fun _ => none
    accountNftTransfers := fun _ => none
    accountFTokenBalances := fun _ => none
    uriActions := fun _ => none }

/-- An oracle whose every contract read fails (all fields degrade to null). -/
def nullOracle : ChainOracle :=
  { rawDetails := fun _ _ _ => { name := none, symbol := none, decimals := none, uri := none }
    balanceOf := fun _ _ => 0 }

def freshProcState : ProcState :=
  { accounts := Mgr.start, fTokens := Mgr.start, nfTokens := Mgr.start,
    collections := Mgr.start, ftTransfers := Mgr.start,
    nftTransfers := Mgr.start, accountFtTransfers := Mgr.start,
    accountNftTransfers := Mgr.start, accountFTokenBalances := Mgr.start,
    uriActions := Mgr.start }

/-- The state at the start of PROCESSING: all managers bound (INIT), caches
empty (cleared by the previous batch's flush). -/
def batchProcState : ProcState := initAllEntityManagers freshProcState

def sampleCtx : EventCtx :=
  { eventId := "0001023-000456-1a2b3"
    address := "0xc0ffee00000000000000000000000000000000aa"
    indexInBlock := 7
    evmTxHash := "0xdeadbeef"
    blockHeight := 1023
    timestamp := 1700000000 }

/-! ### Claim C2 -/
def c2Address : String := "0xc0ffee00000000000000000000000000000000aa"

/-- A fungible token already persisted with a null symbol but a non-null
decimals value — the re-enrichment scenario of the claim. -/
def c2StoredToken : FToken :=
  { id := c2Address, name := some "Tok", symbol := none, decimals := some 18 }

def c2Store : String → Option FToken :=
  fun i => if i = c2Address then some c2StoredToken else none

/-- An oracle whose fresh read returns name and symbol but fails on
decimals. -/
def c2Oracle : ChainOracle :=
  { rawDetails := fun _ _ _ =>
      { name := some "Tok", symbol := some "TK", decimals := none, uri := none }
    balanceOf := fun _ _ => 0 }

/-! Shared fixture: an NfToken already present in the durable store with
non-null name and symbol. -/
def presentTid : String := getTokenEntityId sampleCtx.address (some (Nat.repr 42))

def presentNfToken : NfToken :=
  { id := presentTid
    nativeId := "42"
    name := some "Art"
    symbol := some "ART"
    uri := some "ipfs://x"
    currentOwner := { id := "0xowner" }
    amount := 3
    isBurned := false
    collection :=
      { id := sampleCtx.address, collectionType := ContractStandard.ERC1155,
        createdAtBlock := 1, createdAt := 1 } }

def nftPresentStores : Stores :=
  { emptyStores with
      nfTokens := fun i => if i = presentTid then some presentNfToken else none }

/-! ### Claim C3 -/
def c3SenderBalId : String :=
  getAccountFTokenBalanceEntityId "0xsender" sampleCtx.address

def c3SenderRow : AccountFTokenBalance :=
  { id := c3SenderBalId
    account := { id := "0xsender" }
    token := { id := sampleCtx.address, name := some "USD Coin",
               symbol := some "USDC", decimals := some 6 }
    amount := 100
    updatedAtBlock := 0
    updatedAt := 0 }

/-- Durable store holding the sender's balance row only; the receiver has no
row yet. -/
def c3Stores : Stores :=
  { emptyStores with
      accountFTokenBalances :=
        fun i => if i = c3SenderBalId then some c3SenderRow else none }

/-- Oracle whose live `balanceOf` read returns 55. -/
def c3Oracle : ChainOracle :=
  { rawDetails := fun _ _ _ =>
      { name := some "USD Coin", symbol := some "USDC", decimals := some 6,
        uri := none }
    balanceOf := fun _ _ => 55 }

/-! ### Claim C4 -/
def c4AbsentStore : String → Option Account := fun _ => none

def c4PresentStore : String → Option Account :=
  fun i => if i = "0xabc" then some { id := "0xabc" } else none

/-! ### Claim C7 -/
/-- The claim's reading of the sentinel class: 4 hex/digit characters. -/
def isHexDigitChar (c : Char) : Bool :=
  jsIsDigit c || ('a' ≤ c && c ≤ 'f') || ('A' ≤ c && c ≤ 'F')

/-- The sentinel pattern as the claim states it: 10 digits, a dot, 4
hex/digit characters. -/
def claimSentinelHex (s : String) : Bool :=
  (s.data.length == 15) && (s.data.take 10).all jsIsDigit &&
    ((s.data.drop 10).take 1 == ['.']) &&
    ((s.data.drop 11).all isHexDigitChar)

/-! ## Theorems -/

@[simp]
theorem smapKeys_nil {E : Type} : smapKeys ([] : SMap E) = [] := rfl

@[simp]
theorem smapKeys_cons {E : Type} (kv : String × E) (tl : SMap E) :
    smapKeys (kv :: tl) = kv.1 :: smapKeys tl := rfl

theorem smapFind_set_self {E : Type} (m : SMap E) (k : String) (v : E) :
    smapFind (smapSet m k v) k = some v := by
  induction m with
  | nil => simp [smapSet, smapFind]
  | cons hd tl ih =>
      obtain ⟨k', v'⟩ := hd
      by_cases h : k' = k
      · simp [smapSet, smapFind, h]
      · simp [smapSet, smapFind, h, ih]

theorem smapFind_set_other {E : Type} (m : SMap E) (k k' : String) (v : E)
    (h : k ≠ k') : smapFind (smapSet m k v) k' = smapFind m k' := by
  induction m with
  | nil => simp [smapSet, smapFind, h]
  | cons hd tl ih =>
      obtain ⟨k0, v0⟩ := hd
      by_cases h0 : k0 = k
      · subst h0
        simp [smapSet, smapFind, h]
      · simp only [smapSet, if_neg h0]
        by_cases h1 : k0 = k'
        · simp [smapFind, h1]
        · simp [smapFind, h1, ih]

theorem smapKeys_set_mem {E : Type} (m : SMap E) (k : String) (v : E)
    (h : k ∈ smapKeys m) : smapKeys (smapSet m k v) = smapKeys m := by
  induction m with
  | nil => simp at h
  | cons hd tl ih =>
      obtain ⟨k0, v0⟩ := hd
      by_cases h0 : k0 = k
      · simp [smapSet, h0]
      · have h' : k ∈ smapKeys tl := by
          rcases List.mem_cons.mp h with h1 | h1
          · exact absurd h1.symm h0
          · exact h1
        simp [smapSet, if_neg h0, ih h']

theorem smapKeys_set_not_mem {E : Type} (m : SMap E) (k : String) (v : E)
    (h : k ∉ smapKeys m) : smapKeys (smapSet m k v) = smapKeys m ++ [k] := by
  induction m with
  | nil => simp [smapSet]
  | cons hd tl ih =>
      obtain ⟨k0, v0⟩ := hd
      have h1 : k ≠ k0 := fun he => h (by simp [he])
      have h2 : k ∉ smapKeys tl := fun hm => h (by simp [hm])
      simp [smapSet, if_neg (Ne.symm h1), ih h2]

theorem smapFind_mem_keys {E : Type} (m : SMap E) (k : String) (e : E)
    (h : smapFind m k = some e) : k ∈ smapKeys m := by
  induction m with
  | nil => simp [smapFind] at h
  | cons hd tl ih =>
      obtain ⟨k0, v0⟩ := hd
      by_cases h0 : k0 = k
      · simp [h0]
      · simp only [smapFind, if_neg h0] at h
        simp only [smapKeys_cons]
        exact List.mem_cons.mpr (Or.inr (ih h))

theorem smapFind_not_mem_keys {E : Type} (m : SMap E) (k : String)
    (h : k ∉ smapKeys m) : smapFind m k = none := by
  induction m with
  | nil => rfl
  | cons hd tl ih =>
      obtain ⟨k0, v0⟩ := hd
      have h1 : k ≠ k0 := fun he => h (by simp [he])
      have h2 : k ∉ smapKeys tl := fun hm => h (by simp [hm])
      simp [smapFind, Ne.symm h1, ih h2]

theorem splitIntoBatchesGo_join {α : Type} (maxBatchSize : Nat) :
    ∀ (fuel : Nat) (list : List α),
      (splitIntoBatchesGo maxBatchSize fuel list).flatten = list := by
  intro fuel
  induction fuel with
  | zero => intro list; simp [splitIntoBatchesGo]
  | succ fuel ih =>
      intro list
      unfold splitIntoBatchesGo
      split_ifs with h
      · simp
      · simp [ih]

theorem splitIntoBatches_join {α : Type} (maxBatchSize : Nat)
    (list : List α) : (splitIntoBatches maxBatchSize list).flatten = list :=
  splitIntoBatchesGo_join maxBatchSize list.length list

/-! ### Infrastructure lemmas -/
theorem smapKeys_subset_set {E : Type} (m : SMap E) (k : String) (v : E) :
    smapKeys m ⊆ smapKeys (smapSet m k v) := by
  by_cases h : k ∈ smapKeys m
  · rw [smapKeys_set_mem m k v h]
    exact fun x hx => hx
  · rw [smapKeys_set_not_mem m k v h]
    exact List.subset_append_left _ _

theorem except_bind_ok {ε α β : Type} (a : α) (f : α → Except ε β) :
    (Except.ok a : Except ε α) >>= f = f a := rfl

theorem smapMem_find {E : Type} (m : SMap E) (k : String)
    (h : k ∈ smapKeys m) : ∃ e, smapFind m k = some e := by
  induction m with
  | nil => simp at h
  | cons hd tl ih =>
      obtain ⟨k0, v0⟩ := hd
      by_cases h0 : k0 = k
      · exact ⟨v0, by simp [smapFind, h0]⟩
      · have h' : k ∈ smapKeys tl := by
          rcases List.mem_cons.mp h with h1 | h1
          · exact absurd h1.symm h0
          · exact h1
        obtain ⟨e, he⟩ := ih h'
        exact ⟨e, by simp [smapFind, h0, he]⟩

theorem mgrGet_ok {E : Type} (store : String → Option E) (m : Mgr E)
    (id : String) (h : m.inited = true) :
    mgrGet store m id = Except.ok (lookupEither store m id, getQueries m id) := by
  unfold mgrGet lookupEither getQueries
  rw [h]
  cases smapFind m.cache id <;> simp

theorem lookupEither_id {E : Type} (idOf : E → String)
    (store : String → Option E) (m : Mgr E) (id : String) (e : E)
    (hs : storeWF idOf store) (hc : cacheWF idOf m)
    (h : lookupEither store m id = some e) : idOf e = id := by
  unfold lookupEither at h
  cases hfind : smapFind m.cache id with
  | some x => rw [hfind] at h; exact hc id e (by rw [hfind, ← h])
  | none => rw [hfind] at h; exact hs id e h

theorem cacheWF_add {E : Type} (idOf : E → String) (m : Mgr E) (e : E)
    (hc : cacheWF idOf m) : cacheWF idOf (mgrAdd idOf m e) := by
  intro k x hx
  unfold mgrAdd at hx
  by_cases hk : idOf e = k
  · subst hk
    rw [smapFind_set_self] at hx
    cases hx
    rfl
  · rw [smapFind_set_other _ _ _ _ hk] at hx
    exact hc k x hx

theorem accountsGetOrCreate_ok (store : String → Option Account)
    (m : Mgr Account) (id : String) (h : m.inited = true) :
    accountsGetOrCreate store m id =
      Except.ok (resolveAccount store m id,
        mgrAdd Account.id m (resolveAccount store m id), getQueries m id) := by
  unfold accountsGetOrCreate resolveAccount
  rw [h]
  simp only [Bool.true_eq_false, if_false, mgrGet_ok store m id h]
  cases lookupEither store m id <;> rfl

theorem resolveAccount_id (store : String → Option Account) (m : Mgr Account)
    (id : String) (hs : storeWF Account.id store) (hc : cacheWF Account.id m) :
    (resolveAccount store m id).id = id := by
  unfold resolveAccount
  cases hl : lookupEither store m id with
  | some a => exact lookupEither_id Account.id store m id a hs hc hl
  | none => rfl

theorem fTokenGetOrCreate_ok (o : ChainOracle)
    (store : String → Option FToken) (m : Mgr FToken)
    (contractAddress : String) (contractStandard : ContractStandard)
    (h : m.inited = true) :
    fTokenGetOrCreate o store m contractAddress contractStandard =
      Except.ok (resolveFToken o store m contractAddress contractStandard,
        mgrAdd FToken.id m
          (resolveFToken o store m contractAddress contractStandard),
        getQueries m contractAddress) := by
  unfold fTokenGetOrCreate resolveFToken
  rw [mgrGet_ok store m contractAddress h]
  simp only [h, Bool.true_eq_false, if_false, except_bind_ok]
  cases lookupEither store m contractAddress with
  | none => rfl
  | some tk =>
      by_cases hm : (tk.name.isNone || tk.symbol.isNone) = true <;> simp [hm]

theorem resolveFToken_id (o : ChainOracle) (store : String → Option FToken)
    (m : Mgr FToken) (contractAddress : String)
    (contractStandard : ContractStandard) (hs : storeWF FToken.id store)
    (hc : cacheWF FToken.id m) :
    (resolveFToken o store m contractAddress contractStandard).id =
      contractAddress := by
  unfold resolveFToken
  cases hl : lookupEither store m contractAddress with
  | none => rfl
  | some tk =>
      have := lookupEither_id FToken.id store m contractAddress tk hs hc hl
      by_cases hm : tk.name.isNone || tk.symbol.isNone <;>
        simp [hm, createFToken, this]

theorem collectionGetOrCreate_ok (ev : EventCtx)
    (store : String → Option Collection) (m : Mgr Collection) (id : String)
    (contractStandard : ContractStandard) (h : m.inited = true) :
    ∃ c m' qs,
      collectionGetOrCreate ev store m id contractStandard =
        Except.ok (c, m', qs) ∧
      m' = mgrAdd Collection.id m c ∧ m'.inited = true := by
  unfold collectionGetOrCreate
  rw [mgrGet_ok store m id h]
  simp only [h, Bool.true_eq_false, if_false, except_bind_ok]
  cases lookupEither store m id with
  | none => exact ⟨_, _, _, rfl, rfl, h⟩
  | some c => exact ⟨_, _, _, rfl, rfl, h⟩

theorem createNfToken_ok (o : ChainOracle) (ev : EventCtx)
    (colStore : String → Option Collection) (cols : Mgr Collection)
    (id : String) (nativeId : Nat) (contractAddress : String)
    (contractStandard : ContractStandard) (owner : Account)
    (hC : cols.inited = true) :
    ∃ tk cols',
      createNfToken o ev colStore cols id nativeId contractAddress
        contractStandard owner = Except.ok (tk, cols') ∧
      cols'.inited = true ∧ tk.id = id ∧ tk.currentOwner = owner ∧
      tk.amount = 0 ∧ tk.isBurned = false := by
  unfold createNfToken
  obtain ⟨c, cols', qs, hrun, hadd, hinit⟩ :=
    collectionGetOrCreate_ok ev colStore cols contractAddress
      contractStandard hC
  rw [hrun]
  exact ⟨_, _, rfl, hinit, rfl, rfl, rfl, rfl⟩

/-- General success of `NfTokenManager.getOrCreate` for initialized
managers, with the cache update shape. -/
theorem nfTokenGetOrCreate_ok (o : ChainOracle) (ev : EventCtx)
    (nftStore : String → Option NfToken)
    (colStore : String → Option Collection) (m : Mgr NfToken)
    (cols : Mgr Collection) (nativeId : Nat) (contractAddress : String)
    (contractStandard : ContractStandard) (owner : Account)
    (hN : m.inited = true) (hC : cols.inited = true) :
    ∃ tk m' cols',
      nfTokenGetOrCreate o ev nftStore colStore m cols nativeId
        contractAddress contractStandard owner = Except.ok (tk, m', cols') ∧
      m' = mgrAdd NfToken.id m tk ∧ cols'.inited = true := by
  cases hl : lookupEither nftStore m
      (getTokenEntityId contractAddress (some (Nat.repr nativeId))) with
  | none =>
      obtain ⟨tk, cols', hrun, hinit, _⟩ :=
        createNfToken_ok o ev colStore cols
          (getTokenEntityId contractAddress (some (Nat.repr nativeId)))
          nativeId contractAddress contractStandard owner hC
      refine ⟨tk, mgrAdd NfToken.id m tk, cols', ?_, rfl, hinit⟩
      unfold nfTokenGetOrCreate
      simp only [hN, Bool.true_eq_false, if_false,
        mgrGet_ok nftStore m
          (getTokenEntityId contractAddress (some (Nat.repr nativeId))) hN,
        except_bind_ok, hl, hrun]
  | some tk =>
      by_cases hm : (tk.name.isNone || tk.symbol.isNone) = true
      · obtain ⟨tk', cols', hrun, hinit, _⟩ :=
          createNfToken_ok o ev colStore cols
            (getTokenEntityId contractAddress (some (Nat.repr nativeId)))
            nativeId contractAddress contractStandard owner hC
        refine ⟨tk', mgrAdd NfToken.id m tk', cols', ?_, rfl, hinit⟩
        unfold nfTokenGetOrCreate
        simp only [hN, Bool.true_eq_false, if_false,
          mgrGet_ok nftStore m
            (getTokenEntityId contractAddress (some (Nat.repr nativeId))) hN,
          except_bind_ok, hl, hm, if_true, hrun]
      · refine ⟨tk, mgrAdd NfToken.id m tk, cols, ?_, rfl, hC⟩
        unfold nfTokenGetOrCreate
        simp only [hN, Bool.true_eq_false, if_false,
          mgrGet_ok nftStore m
            (getTokenEntityId contractAddress (some (Nat.repr nativeId))) hN,
          except_bind_ok, hl, hm, Bool.false_eq_true, if_false]

/-- Found case of `NfTokenManager.getOrCreate`: a token already present
(cache or store) with a non-null name and symbol is returned unchanged and
only re-cached. -/
theorem nfTokenGetOrCreate_found (o : ChainOracle) (ev : EventCtx)
    (nftStore : String → Option NfToken)
    (colStore : String → Option Collection) (m : Mgr NfToken)
    (cols : Mgr Collection) (nativeId : Nat) (contractAddress : String)
    (contractStandard : ContractStandard) (owner : Account) (tk : NfToken)
    (hN : m.inited = true)
    (hfound : lookupEither nftStore m
      (getTokenEntityId contractAddress (some (Nat.repr nativeId))) = some tk)
    (hname : tk.name ≠ none) (hsym : tk.symbol ≠ none) :
    nfTokenGetOrCreate o ev nftStore colStore m cols nativeId contractAddress
      contractStandard owner =
      Except.ok (tk, mgrAdd NfToken.id m tk, cols) := by
  have hm : (tk.name.isNone || tk.symbol.isNone) = false := by
    rw [Bool.or_eq_false_iff, Option.isNone_eq_false_iff,
      Option.isNone_eq_false_iff]
    exact ⟨Option.isSome_iff_ne_none.mpr hname,
      Option.isSome_iff_ne_none.mpr hsym⟩
  unfold nfTokenGetOrCreate
  simp only [hN, Bool.true_eq_false, if_false,
    mgrGet_ok nftStore m
      (getTokenEntityId contractAddress (some (Nat.repr nativeId))) hN,
    except_bind_ok, hfound, hm, Bool.false_eq_true, if_false]

@[simp]
theorem mgrAdd_inited {E : Type} (idOf : E → String) (m : Mgr E) (e : E) :
    (mgrAdd idOf m e).inited = m.inited := rfl

@[simp]
theorem mgrAdd_cache {E : Type} (idOf : E → String) (m : Mgr E) (e : E) :
    (mgrAdd idOf m e).cache = smapSet m.cache (idOf e) e := rfl

theorem accountsNftTransferGetOrCreate_noId
    (store : String → Option AccountNftTransfer) (m : Mgr AccountNftTransfer)
    (account : Account) (transfer : NftTransfer)
    (direction : TransferDirection) (h : m.inited = true) :
    accountsNftTransferGetOrCreate store m none account transfer direction =
      Except.ok (createAccountNftTransfer account transfer direction,
        mgrAdd AccountNftTransfer.id m
          (createAccountNftTransfer account transfer direction)) := by
  unfold accountsNftTransferGetOrCreate
  simp [h]

theorem accountsFtTransferGetOrCreate_noId
    (store : String → Option AccountFtTransfer) (m : Mgr AccountFtTransfer)
    (account : Account) (transfer : FtTransfer)
    (direction : TransferDirection) (h : m.inited = true) :
    accountsFtTransferGetOrCreate store m none account transfer direction =
      Except.ok (createAccountFtTransfer account transfer direction,
        mgrAdd AccountFtTransfer.id m
          (createAccountFtTransfer account transfer direction)) := by
  unfold accountsFtTransferGetOrCreate
  simp [h]

/-- Found case of `NftTransferManager.getOrCreate`: the token already exists
with non-null name and symbol. -/
theorem nftTransferGetOrCreate_found (o : ChainOracle) (st : Stores)
    (ev : EventCtx) (s : ProcState) (from_ to_ : String)
    (operator? : Option String) (amount : Int) (tokenId : Nat)
    (isBatch : Bool) (contractStandard : ContractStandard) (tk : NfToken)
    (hA : s.accounts.inited = true) (hN : s.nfTokens.inited = true)
    (hfound : lookupEither st.nfTokens s.nfTokens
      (getTokenEntityId ev.address (some (Nat.repr tokenId))) = some tk)
    (hname : tk.name ≠ none) (hsym : tk.symbol ≠ none) :
    ∃ tr s',
      nftTransferGetOrCreate o st ev s from_ to_ operator? amount tokenId
        isBatch contractStandard = Except.ok (tr, s') ∧
      tr.id = getNftTransferEntityId ev.eventId (Nat.repr tokenId) ∧
      tr.token = nftTransferTokenUpdate tk amount from_ to_ contractStandard ∧
      tr.amount = amount ∧
      tr.transferType = getTransferType from_ to_ ∧
      s'.nfTokens = mgrAdd NfToken.id (mgrAdd NfToken.id s.nfTokens tk)
        (nftTransferTokenUpdate tk amount from_ to_ contractStandard) ∧
      s'.collections = s.collections ∧
      s'.nftTransfers = mgrAdd NftTransfer.id s.nftTransfers tr ∧
      s'.accountNftTransfers = s.accountNftTransfers ∧
      s'.accountFTokenBalances = s.accountFTokenBalances ∧
      s'.accounts.inited = true := by
  unfold nftTransferGetOrCreate
  rw [accountsGetOrCreate_ok st.accounts s.accounts from_ hA]
  simp only [except_bind_ok]
  rw [accountsGetOrCreate_ok st.accounts _ to_ (by simp [hA])]
  simp only [except_bind_ok]
  cases operator? with
  | none =>
      simp only [except_bind_ok]
      rw [nfTokenGetOrCreate_found o ev st.nfTokens st.collections _
        s.collections tokenId ev.address contractStandard _ tk
        (by simp [hN]) hfound hname hsym]
      simp only [except_bind_ok]
      exact ⟨_, _, rfl, rfl, rfl, rfl, rfl, rfl, rfl, rfl, rfl, rfl,
        by simp [hA]⟩
  | some op =>
      simp only [except_bind_ok]
      rw [accountsGetOrCreate_ok st.accounts _ op (by simp [hA])]
      simp only [except_bind_ok]
      rw [nfTokenGetOrCreate_found o ev st.nfTokens st.collections _
        s.collections tokenId ev.address contractStandard _ tk
        (by simp [hN]) hfound hname hsym]
      simp only [except_bind_ok]
      exact ⟨_, _, rfl, rfl, rfl, rfl, rfl, rfl, rfl, rfl, rfl, rfl,
        by simp [hA]⟩

/-- General success of `NftTransferManager.getOrCreate` on initialized
managers: one transfer keyed `<eventId>-<tokenId>` is cached; the join-row
and balance caches are untouched. -/
theorem nftTransferGetOrCreate_ok (o : ChainOracle) (st : Stores)
    (ev : EventCtx) (s : ProcState) (from_ to_ : String)
    (operator? : Option String) (amount : Int) (tokenId : Nat)
    (isBatch : Bool) (contractStandard : ContractStandard)
    (hA : s.accounts.inited = true) (hN : s.nfTokens.inited = true)
    (hC : s.collections.inited = true) :
    ∃ tr s',
      nftTransferGetOrCreate o st ev s from_ to_ operator? amount tokenId
        isBatch contractStandard = Except.ok (tr, s') ∧
      tr.id = getNftTransferEntityId ev.eventId (Nat.repr tokenId) ∧
      s'.nftTransfers = mgrAdd NftTransfer.id s.nftTransfers tr ∧
      s'.accountNftTransfers = s.accountNftTransfers ∧
      s'.accountFTokenBalances = s.accountFTokenBalances ∧
      s'.accounts.inited = true ∧ s'.nfTokens.inited = true ∧
      s'.collections.inited = true := by
  obtain ⟨tk, m', cols', hrun, hmadd, hcinit⟩ :=
    nfTokenGetOrCreate_ok o ev st.nfTokens st.collections s.nfTokens
      s.collections tokenId ev.address contractStandard
      (resolveAccount st.accounts
        (mgrAdd Account.id s.accounts (resolveAccount st.accounts s.accounts from_)) to_)
      hN hC
  unfold nftTransferGetOrCreate
  rw [accountsGetOrCreate_ok st.accounts s.accounts from_ hA]
  simp only [except_bind_ok]
  rw [accountsGetOrCreate_ok st.accounts _ to_ (by simp [hA])]
  simp only [except_bind_ok]
  cases operator? with
  | none =>
      simp only [except_bind_ok]
      rw [hrun]
      simp only [except_bind_ok]
      refine ⟨_, _, rfl, rfl, rfl, rfl, rfl, by simp [hA], ?_, hcinit⟩
      simp only [hmadd, mgrAdd_inited, hN]
  | some op =>
      simp only [except_bind_ok]
      rw [accountsGetOrCreate_ok st.accounts _ op (by simp [hA])]
      simp only [except_bind_ok]
      rw [hrun]
      simp only [except_bind_ok]
      refine ⟨_, _, rfl, rfl, rfl, rfl, rfl, by simp [hA], ?_, hcinit⟩
      simp only [hmadd, mgrAdd_inited, hN]

/-- Fan-out invariant of the `TransferBatch` loop: with enough values, fresh
and pairwise-distinct derived ids, the loop succeeds and appends exactly one
transfer cache key per (id, value) pair, in order. -/
theorem transferBatchLoop_keys (o : ChainOracle) (st : Stores)
    (ev : EventCtx) (operator from_ to_ : String) :
    ∀ (tids : List Nat) (vals : List Int) (s : ProcState),
      s.accounts.inited = true → s.nfTokens.inited = true →
      s.collections.inited = true → s.accountNftTransfers.inited = true →
      tids.length ≤ vals.length →
      (∀ t ∈ tids,
        derivedTransferId ev.eventId t ∉ smapKeys s.nftTransfers.cache) →
      (tids.map (derivedTransferId ev.eventId)).Nodup →
      ∃ s',
        transferBatchLoop o st ev operator from_ to_ s tids vals =
          Except.ok s' ∧
        smapKeys s'.nftTransfers.cache =
          smapKeys s.nftTransfers.cache ++
            tids.map (derivedTransferId ev.eventId) := by
  intro tids
  induction tids with
  | nil =>
      intro vals s _ _ _ _ _ _ _
      exact ⟨s, rfl, by simp⟩
  | cons t tids ih =>
      intro vals s hA hN hC hAnt hlen hfresh hnodup
      cases vals with
      | nil => simp at hlen
      | cons v vs =>
          obtain ⟨tr, s1, hrun, hid, hnft, hant, _, hA1, hN1, hC1⟩ :=
            nftTransferGetOrCreate_ok o st ev s from_ to_ (some operator) v t
              true ContractStandard.ERC1155 hA hN hC
          have hant1 : s1.accountNftTransfers.inited = true := by
            rw [hant]; exact hAnt
          have hstep : transferBatchLoop o st ev operator from_ to_ s
              (t :: tids) (v :: vs) =
              transferBatchLoop o st ev operator from_ to_
                { s1 with
                    accountNftTransfers :=
                      mgrAdd AccountNftTransfer.id
                        (mgrAdd AccountNftTransfer.id s1.accountNftTransfers
                          (createAccountNftTransfer tr.from_ tr
                            TransferDirection.From))
                        (createAccountNftTransfer tr.to_ tr
                          TransferDirection.To) } tids vs := by
            simp only [transferBatchLoop]
            rw [hrun]
            simp only [except_bind_ok]
            rw [accountsNftTransferGetOrCreate_noId st.accountNftTransfers _
              tr.from_ tr TransferDirection.From hant1]
            simp only [except_bind_ok]
            rw [accountsNftTransferGetOrCreate_noId st.accountNftTransfers _
              tr.to_ tr TransferDirection.To (by simp [hant1])]
            simp only [except_bind_ok]
          set s3 : ProcState :=
            { s1 with
                accountNftTransfers :=
                  mgrAdd AccountNftTransfer.id
                    (mgrAdd AccountNftTransfer.id s1.accountNftTransfers
                      (createAccountNftTransfer tr.from_ tr
                        TransferDirection.From))
                    (createAccountNftTransfer tr.to_ tr
                      TransferDirection.To) } with hs3
          have hfreshHead : derivedTransferId ev.eventId t ∉
              smapKeys s.nftTransfers.cache :=
            hfresh t (List.mem_cons_self t tids)
          have hkeys3 : smapKeys s3.nftTransfers.cache =
              smapKeys s.nftTransfers.cache ++ [derivedTransferId ev.eventId t] := by
            rw [hs3]
            simp only [hnft, mgrAdd_cache]
            rw [hid]
            exact smapKeys_set_not_mem _ _ _ hfreshHead
          have hnodupTail : (tids.map (derivedTransferId ev.eventId)).Nodup :=
            (List.nodup_cons.mp hnodup).2
          have hheadNotTail : derivedTransferId ev.eventId t ∉
              tids.map (derivedTransferId ev.eventId) :=
            (List.nodup_cons.mp hnodup).1
          have hfresh3 : ∀ t' ∈ tids,
              derivedTransferId ev.eventId t' ∉ smapKeys s3.nftTransfers.cache := by
            intro t' ht'
            rw [hkeys3]
            intro hmem
            rcases List.mem_append.mp hmem with hmem | hmem
            · exact hfresh t' (List.mem_cons_of_mem t ht') hmem
            · rcases List.mem_singleton.mp hmem with hmem
              exact hheadNotTail (hmem ▸ List.mem_map_of_mem
                (derivedTransferId ev.eventId) ht')
          obtain ⟨s', hrun', hkeys'⟩ := ih vs s3
            (by rw [hs3]; exact hA1) (by rw [hs3]; exact hN1)
            (by rw [hs3]; exact hC1) (by rw [hs3]; simp [hant1])
            (Nat.le_of_succ_le_succ hlen) hfresh3 hnodupTail
          refine ⟨s', by rw [hstep]; exact hrun', ?_⟩
          rw [hkeys', hkeys3]
          simp [List.append_assoc]

theorem updateFTokenBalance_existing (o : ChainOracle) (ev : EventCtx)
    (store : String → Option AccountFTokenBalance)
    (m : Mgr AccountFTokenBalance) (account : Account) (token : FToken)
    (contractAddress : String) (amount : Int) (action : FTokenBalanceAction)
    (bal : AccountFTokenBalance) (h : m.inited = true)
    (hfound : lookupEither store m
      (getAccountFTokenBalanceEntityId account.id token.id) = some bal) :
    updateFTokenBalance o ev store m account token contractAddress amount
      action =
      Except.ok (mgrAdd AccountFTokenBalance.id m
        (fTokenBalanceAdjust bal amount action)) := by
  unfold updateFTokenBalance
  simp only [mgrGet_ok store m
      (getAccountFTokenBalanceEntityId account.id token.id) h,
    except_bind_ok, hfound]
  cases action <;> rfl

theorem updateFTokenBalance_missing (o : ChainOracle) (ev : EventCtx)
    (store : String → Option AccountFTokenBalance)
    (m : Mgr AccountFTokenBalance) (account : Account) (token : FToken)
    (contractAddress : String) (amount : Int) (action : FTokenBalanceAction)
    (h : m.inited = true)
    (hnone : lookupEither store m
      (getAccountFTokenBalanceEntityId account.id token.id) = none) :
    updateFTokenBalance o ev store m account token contractAddress amount
      action =
      Except.ok (mgrAdd AccountFTokenBalance.id m
        (createAccountFTokenBalances ev account token
          (o.balanceOf account.id contractAddress))) := by
  unfold updateFTokenBalance accountFTokenBalanceGetOrCreate
  simp only [mgrGet_ok store m
      (getAccountFTokenBalanceEntityId account.id token.id) h,
    except_bind_ok, hnone, h, Bool.true_eq_false, if_false]

theorem ftTransferGetOrCreate_ok (o : ChainOracle) (st : Stores)
    (ev : EventCtx) (s : ProcState) (from_ to_ : String) (amount : Int)
    (hA : s.accounts.inited = true) (hF : s.fTokens.inited = true) :
    ftTransferGetOrCreate o st ev s from_ to_ amount =
      Except.ok (ftTransferResolved o st ev s from_ to_ amount,
        { s with
            accounts := mgrAdd Account.id
              (mgrAdd Account.id s.accounts
                (resolveAccount st.accounts s.accounts from_))
              (resolveAccount st.accounts
                (mgrAdd Account.id s.accounts
                  (resolveAccount st.accounts s.accounts from_)) to_)
            fTokens := mgrAdd FToken.id s.fTokens
              (resolveFToken o st.fTokens s.fTokens ev.address
                ContractStandard.ERC20)
            ftTransfers := mgrAdd FtTransfer.id s.ftTransfers
              (ftTransferResolved o st ev s from_ to_ amount) }) := by
  unfold ftTransferGetOrCreate
  rw [accountsGetOrCreate_ok st.accounts s.accounts from_ hA]
  simp only [except_bind_ok]
  rw [accountsGetOrCreate_ok st.accounts _ to_ (by simp [hA])]
  simp only [except_bind_ok]
  rw [fTokenGetOrCreate_ok o st.fTokens s.fTokens ev.address
    ContractStandard.ERC20 hF]
  simp only [except_bind_ok]
  rfl

/-! ### Query-count infrastructure for the at-most-one-fetch property -/
theorem foldAdd_inited {E : Type} (idOf : E → String) :
    ∀ (l : List E) (m : Mgr E),
      ((l.foldl (fun a e => mgrAdd idOf a e) m)).inited = m.inited := by
  intro l
  induction l with
  | nil => intro m; rfl
  | cons e l ih => intro m; rw [List.foldl_cons, ih]; rfl

theorem foldAdd_keys_mono {E : Type} (idOf : E → String) :
    ∀ (l : List E) (m : Mgr E),
      smapKeys m.cache ⊆
        smapKeys ((l.foldl (fun a e => mgrAdd idOf a e) m)).cache := by
  intro l
  induction l with
  | nil => intro m; exact fun x hx => hx
  | cons e l ih =>
      intro m
      rw [List.foldl_cons]
      exact fun x hx => ih (mgrAdd idOf m e) (smapKeys_subset_set _ _ _ hx)

theorem foldAdd_keys_mem {E : Type} (idOf : E → String) :
    ∀ (l : List E) (m : Mgr E) (e : E), e ∈ l →
      idOf e ∈ smapKeys ((l.foldl (fun a e => mgrAdd idOf a e) m)).cache := by
  intro l
  induction l with
  | nil => intro m e he; simp at he
  | cons e0 l ih =>
      intro m e he
      rw [List.foldl_cons]
      rcases List.mem_cons.mp he with he | he
      · subst he
        exact foldAdd_keys_mono idOf l _
          (smapFind_mem_keys _ _ _ (smapFind_set_self m.cache (idOf e) e))
      · exact ih _ e he

theorem prefetchFold_inited {E : Type} (idOf : E → String)
    (store : String → Option E) :
    ∀ (chunks : List (List String)) (m : Mgr E),
      ((chunks.foldl
        (fun acc chunk =>
          (chunk.filterMap store).foldl (fun a e => mgrAdd idOf a e) acc)
        m)).inited = m.inited := by
  intro chunks
  induction chunks with
  | nil => intro m; rfl
  | cons c chunks ih =>
      intro m
      rw [List.foldl_cons, ih, foldAdd_inited]

theorem prefetchFold_keys_mono {E : Type} (idOf : E → String)
    (store : String → Option E) :
    ∀ (chunks : List (List String)) (m : Mgr E),
      smapKeys m.cache ⊆
        smapKeys ((chunks.foldl
          (fun acc chunk =>
            (chunk.filterMap store).foldl (fun a e => mgrAdd idOf a e) acc)
          m)).cache := by
  intro chunks
  induction chunks with
  | nil => intro m; exact fun x hx => hx
  | cons c chunks ih =>
      intro m
      rw [List.foldl_cons]
      exact fun x hx => ih _ (foldAdd_keys_mono idOf _ m hx)

theorem prefetchFold_keys_mem {E : Type} (idOf : E → String)
    (store : String → Option E) :
    ∀ (chunks : List (List String)) (m : Mgr E) (c : List String) (e : E),
      c ∈ chunks → e ∈ c.filterMap store →
      idOf e ∈ smapKeys ((chunks.foldl
        (fun acc chunk =>
          (chunk.filterMap store).foldl (fun a e => mgrAdd idOf a e) acc)
        m)).cache := by
  intro chunks
  induction chunks with
  | nil => intro m c e hc; simp at hc
  | cons c0 chunks ih =>
      intro m c e hc he
      rw [List.foldl_cons]
      rcases List.mem_cons.mp hc with hc | hc
      · subst hc
        exact prefetchFold_keys_mono idOf store chunks _
          (foldAdd_keys_mem idOf _ m e he)
      · exact ih _ c e hc he

theorem mgrPrefetchEntities_ok {E : Type} (store : String → Option E)
    (idOf : E → String) (m : Mgr E) (h : m.inited = true) :
    ∃ m2 plog, mgrPrefetchEntities store idOf m = Except.ok (m2, plog) ∧
      m2.inited = true ∧ smapKeys m.cache ⊆ smapKeys m2.cache := by
  unfold mgrPrefetchEntities
  simp only [h, Bool.true_eq_false, if_false]
  by_cases he : m.prefetchIds.isEmpty
  · simp only [he, if_true]
    exact ⟨m, [], rfl, h, fun x hx => hx⟩
  · simp only [he, Bool.false_eq_true, if_false]
    refine ⟨_, _, rfl, ?_, ?_⟩
    · show (Mgr.mk _ _ _).inited = true
      rw [← h]
      exact prefetchFold_inited idOf store _ m
    · exact prefetchFold_keys_mono idOf store _ m

/-- Prefetch warming: an id on the prefetch list that the store contains is
cached by `prefetchEntities`. -/
theorem mgrPrefetchEntities_warm {E : Type} (store : String → Option E)
    (idOf : E → String) (m : Mgr E) (id : String) (e : E)
    (h : m.inited = true) (hmem : id ∈ m.prefetchIds)
    (hstore : store id = some e) (hwf : storeWF idOf store) :
    ∃ m2 plog, mgrPrefetchEntities store idOf m = Except.ok (m2, plog) ∧
      m2.inited = true ∧ id ∈ smapKeys m2.cache := by
  unfold mgrPrefetchEntities
  simp only [h, Bool.true_eq_false, if_false]
  have hne : m.prefetchIds.isEmpty = false := by
    cases hl : m.prefetchIds with
    | nil => rw [hl] at hmem; simp at hmem
    | cons a l => rfl
  simp only [hne, Bool.false_eq_true, if_false]
  refine ⟨_, _, rfl, ?_, ?_⟩
  · show (Mgr.mk _ _ _).inited = true
    rw [← h]
    exact prefetchFold_inited idOf store _ m
  · have hflat : id ∈ (splitIntoBatches 1000 m.prefetchIds).flatten := by
      rw [splitIntoBatches_join]
      exact hmem
    obtain ⟨c, hc, hidc⟩ := List.mem_flatten.mp hflat
    have hef : e ∈ c.filterMap store :=
      List.mem_filterMap.mpr ⟨id, hidc, hstore⟩
    have := prefetchFold_keys_mem idOf store
      (splitIntoBatches 1000 m.prefetchIds) m c e hc hef
    rw [hwf id e hstore] at this
    exact this

theorem resolveAccount_id_of_miss (store : String → Option Account)
    (m : Mgr Account) (id : String) (hwf : storeWF Account.id store)
    (hfind : smapFind m.cache id = none) :
    (resolveAccount store m id).id = id := by
  unfold resolveAccount lookupEither
  rw [hfind]
  cases hs : store id with
  | none => rfl
  | some e => exact hwf id e hs

theorem accountsRun_count_zero (store : String → Option Account)
    (id : String) (hwf : storeWF Account.id store) :
    ∀ (ids : List String) (m : Mgr Account), m.inited = true →
      id ∈ smapKeys m.cache → ((accountsRun store m ids).2.count id) = 0 := by
  intro ids
  induction ids with
  | nil => intro m _ _; rfl
  | cons a rest ih =>
      intro m hinit hmem
      unfold accountsRun
      rw [accountsGetOrCreate_ok store m a hinit]
      simp only [List.count_append]
      have hqs : (getQueries m a).count id = 0 := by
        unfold getQueries
        by_cases ha : a = id
        · subst ha
          obtain ⟨e, he⟩ := smapMem_find m.cache a hmem
          rw [he]
          rfl
        · cases smapFind m.cache a with
          | some e => rfl
          | none => simp [List.count_singleton, ha]
      rw [hqs]
      have hmem' : id ∈ smapKeys (mgrAdd Account.id m
          (resolveAccount store m a)).cache :=
        smapKeys_subset_set _ _ _ hmem
      rw [ih _ (by simp [hinit]) hmem']

theorem accountsRun_count_le_one (store : String → Option Account)
    (id : String) (hwf : storeWF Account.id store) :
    ∀ (ids : List String) (m : Mgr Account), m.inited = true →
      ((accountsRun store m ids).2.count id) ≤ 1 := by
  intro ids
  induction ids with
  | nil => intro m _; simp [accountsRun]
  | cons a rest ih =>
      intro m hinit
      unfold accountsRun
      rw [accountsGetOrCreate_ok store m a hinit]
      simp only [List.count_append]
      by_cases ha : a = id
      · subst ha
        cases hfind : smapFind m.cache a with
        | some e =>
            have hqs : (getQueries m a).count a = 0 := by
              unfold getQueries; rw [hfind]; rfl
            rw [hqs]
            have hmem : a ∈ smapKeys m.cache := smapFind_mem_keys _ _ _ hfind
            have := accountsRun_count_zero store a hwf rest
              (mgrAdd Account.id m (resolveAccount store m a))
              (by simp [hinit]) (smapKeys_subset_set _ _ _ hmem)
            omega
        | none =>
            have hqs : (getQueries m a).count a = 1 := by
              unfold getQueries; rw [hfind]; simp
            rw [hqs]
            have hid : (resolveAccount store m a).id = a :=
              resolveAccount_id_of_miss store m a hwf hfind
            have hmem : a ∈ smapKeys (mgrAdd Account.id m
                (resolveAccount store m a)).cache := by
              rw [mgrAdd_cache, hid]
              exact smapFind_mem_keys _ _ _ (smapFind_set_self _ _ _)
            have := accountsRun_count_zero store a hwf rest
              (mgrAdd Account.id m (resolveAccount store m a))
              (by simp [hinit]) hmem
            omega
      · have hqs : (getQueries m a).count id = 0 := by
          unfold getQueries
          cases smapFind m.cache a with
          | some e => rfl
          | none => simp [List.count_singleton, ha]
        rw [hqs]
        have := ih (mgrAdd Account.id m (resolveAccount store m a))
          (by simp [hinit])
        omega

theorem accountsRun_count_zero_of_cached (store : String → Option Account)
    (id : String) (hwf : storeWF Account.id store) (ids : List String)
    (m : Mgr Account) (hinit : m.inited = true)
    (hmem : id ∈ smapKeys m.cache) :
    ((accountsRun store m ids).2.count id) = 0 :=
  accountsRun_count_zero store id hwf ids m hinit hmem

/-! ### Index-wise characterization of the sentinel regex -/
theorem list_all_iff_get {p : Char → Bool} :
    ∀ (l : List Char),
      (l.all p = true) ↔ ∀ i c, l.get? i = some c → p c = true := by
  intro l
  induction l with
  | nil => simp
  | cons a l ih =>
      simp only [List.all_cons, Bool.and_eq_true, ih]
      constructor
      · rintro ⟨ha, hl⟩ i c hc
        cases i with
        | zero => cases hc; exact ha
        | succ i => exact hl i c hc
      · intro h
        exact ⟨h 0 a rfl, fun i c hc => h (i + 1) c hc⟩

theorem take_all_iff {p : Char → Bool} (l : List Char) (n : Nat) :
    ((l.take n).all p = true) ↔
      ∀ i c, i < n → l.get? i = some c → p c = true := by
  rw [list_all_iff_get]
  constructor
  · intro h i c hi hc
    exact h i c (by rw [List.get?_take hi, hc])
  · intro h i c hc
    have hlen : i < (l.take n).length := List.get?_eq_some.mp hc |>.1
    have hi : i < n := lt_of_lt_of_le hlen (by simp [List.length_take])
    exact h i c hi (by rw [← List.get?_take hi, hc])

theorem drop_all_iff {p : Char → Bool} (l : List Char) (k : Nat) :
    ((l.drop k).all p = true) ↔
      ∀ i c, l.get? (k + i) = some c → p c = true := by
  rw [list_all_iff_get]
  constructor
  · intro h i c hc
    exact h i c (by rw [List.get?_drop, hc])
  · intro h i c hc
    rw [List.get?_drop] at hc
    exact h i c hc

theorem drop_take_one_iff (l : List Char) (h : 10 < l.length) :
    ((l.drop 10).take 1 = ['.']) ↔ l.get? 10 = some '.' := by
  have hget : (l.drop 10).get? 0 = l.get? 10 := by
    rw [List.get?_drop]
  cases hd : l.drop 10 with
  | nil =>
      exfalso
      have hlen := List.length_drop 10 l
      rw [hd] at hlen
      simp at hlen
      omega
  | cons c cs =>
      rw [hd] at hget
      simp only [List.take_succ_cons, List.take_zero]
      constructor
      · intro hc
        injection hc with h1 _
        rw [← h1]
        exact hget.symm
      · intro hc
        have hcc : some c = some '.' := hget.trans hc
        injection hcc with h1
        rw [h1]

theorem specSentinelAmended_iff (s : String) :
    specSentinelAmended s ↔ sentinelRegexTest s = true := by
  unfold specSentinelAmended sentinelRegexTest
  simp only [Bool.and_eq_true, beq_iff_eq]
  constructor
  · rintro ⟨hlen, hdig, hdot, hcls⟩
    refine ⟨⟨⟨hlen, ?_⟩, ?_⟩, ?_⟩
    · rw [take_all_iff]
      intro i c hi hc
      have := hdig i hi
      rw [hc] at this
      exact this
    · exact (drop_take_one_iff s.data (by omega)).mpr hdot
    · rw [drop_all_iff]
      intro i c hc
      have hi : 11 + i < 15 := by
        have := (List.get?_eq_some.mp hc).1
        omega
      have := hcls (11 + i) (by omega) hi
      rw [hc] at this
      exact this
  · rintro ⟨⟨⟨hlen, htake⟩, hdot⟩, hdrop⟩
    refine ⟨hlen, ?_, ?_, ?_⟩
    · intro i hi
      have hsome : ∃ c, s.data.get? i = some c := by
        have : i < s.data.length := by omega
        cases hc : s.data.get? i with
        | none => rw [List.get?_eq_none] at hc; omega
        | some c => exact ⟨c, rfl⟩
      obtain ⟨c, hc⟩ := hsome
      rw [hc]
      exact (take_all_iff s.data 10).mp htake i c hi hc
    · exact (drop_take_one_iff s.data (by omega)).mp hdot
    · intro i h11 h15
      have hsome : ∃ c, s.data.get? i = some c := by
        have : i < s.data.length := by omega
        cases hc : s.data.get? i with
        | none => rw [List.get?_eq_none] at hc; omega
        | some c => exact ⟨c, rfl⟩
      obtain ⟨c, hc⟩ := hsome
      rw [hc]
      have : s.data.get? (11 + (i - 11)) = some c := by
        have : 11 + (i - 11) = i := by omega
        rw [this, hc]
      exact (drop_all_iff s.data 11).mp hdrop (i - 11) c this

theorem except_bind_err {ε α β : Type} (e : ε) (f : α → Except ε β) :
    (Except.error e : Except ε α) >>= f = Except.error e := rfl

/-! ### Claim C1 -/
/-- C1 counterexample: a batch consisting of a single ERC1155 `URI` event
whose NfToken does not exist (all managers initialized, caches and store
empty) makes the whole PROCESSING run return the uncaught error
`'Token is not existing.'` — the batch run aborts on a single failing event,
contradicting the claim that every individual resolver error is caught and
processing continues. -/
theorem c1_uri_error_aborts_batch :
    runProcessing nullOracle emptyStores batchProcState
      [{ ctx := sampleCtx, item := LogItem.uriEvent { value := "ipfs://new", id := 1 } }] =
      Except.error "Token is not existing." := rfl

/-- C1 (amended): only the shared ERC20/ERC721 `Transfer` topic dispatch is
guarded: an ERC20 handler error falls back to the ERC721 handler and an
ERC721 handler error is swallowed (its logging is commented out), so a
Transfer-topic item never aborts the run and processing continues with the
next event.  The ERC1155 handlers are dispatched without try/catch: the
missing-required-entity error of the URI resolver propagates and aborts the
whole batch run. -/
theorem c1_transfer_topic_guarded_erc1155_unguarded :
    (∀ (o : ChainOracle) (st : Stores) (s : ProcState) (ev : EventCtx)
       (d20 : Option Erc20TransferPayload)
       (d721 : Option Erc721TransferPayload) (rest : List BatchItem),
       ∃ s', processItem o st s
           { ctx := ev, item := LogItem.transferTopic d20 d721 } =
           Except.ok s' ∧
         runProcessing o st s
           ({ ctx := ev, item := LogItem.transferTopic d20 d721 } :: rest) =
           runProcessing o st s' rest)
    ∧
    (∀ (o : ChainOracle) (st : Stores) (s : ProcState) (ev : EventCtx)
       (p : Erc1155UriPayload) (rest : List BatchItem),
       s.nfTokens.inited = true →
       lookupEither st.nfTokens s.nfTokens
         (getTokenEntityId ev.address (some (Nat.repr p.id))) = none →
       runProcessing o st s
         ({ ctx := ev, item := LogItem.uriEvent p } :: rest) =
         Except.error "Token is not existing.") := by
  constructor
  · intro o st s ev d20 d721 rest
    have hp : ∃ s', processItem o st s
        { ctx := ev, item := LogItem.transferTopic d20 d721 } =
        Except.ok s' := by
      unfold processItem
      dsimp only
      cases handleErc20Transfer o st ev s d20 with
      | ok s' => exact ⟨s', rfl⟩
      | error e =>
          cases handleErc721Transfer o st ev s d721 with
          | ok s' => exact ⟨s', rfl⟩
          | error e2 => exact ⟨s, rfl⟩
    obtain ⟨s', hp⟩ := hp
    refine ⟨s', hp, ?_⟩
    simp only [runProcessing]
    rw [hp]
    simp only [except_bind_ok]
  · intro o st s ev p rest hN hnone
    have hfail : processItem o st s { ctx := ev, item := LogItem.uriEvent p } =
        Except.error "Token is not existing." := by
      unfold processItem handleErc1155UriChanged
      dsimp only
      simp only [mgrGet_ok st.nfTokens s.nfTokens
        (getTokenEntityId ev.address (some (Nat.repr p.id))) hN,
        except_bind_ok, hnone]
    simp only [runProcessing]
    rw [hfail]
    simp only [except_bind_err]

/-- C1 witness: the amended theorem applied at a concrete batch (single URI
event, empty caches and store). -/
theorem c1_witness :
    batchProcState.nfTokens.inited = true ∧
    lookupEither emptyStores.nfTokens batchProcState.nfTokens
      (getTokenEntityId sampleCtx.address (some (Nat.repr 1))) = none ∧
    runProcessing nullOracle emptyStores batchProcState
      [{ ctx := sampleCtx, item := LogItem.uriEvent { value := "ipfs://new", id := 1 } }] =
      Except.error "Token is not existing." :=
  ⟨rfl, rfl,
    c1_transfer_topic_guarded_erc1155_unguarded.2 nullOracle emptyStores
      batchProcState sampleCtx { value := "ipfs://new", id := 1 } [] rfl rfl⟩

/-- C2: the source's first branch guard
`!token || (token && (!token.name || !token.symbol))` already captures the
found-but-incomplete token, so the `else if` patch branch is dead code and
`createFToken` rebuilds the entity from scratch: its decimals value is the
freshly (re-)read one, not the persisted `some 18`.  Evaluated at the
failing input. -/
theorem c2_reenrichment_rereads_decimals :
    c2StoredToken.decimals = some 18 ∧
    fTokenGetOrCreate c2Oracle c2Store (mgrInit Mgr.start) c2Address
      ContractStandard.ERC20 =
      Except.ok
        ({ id := c2Address, name := some "Tok", symbol := some "TK",
           decimals := none },
         mgrAdd FToken.id (mgrInit Mgr.start)
           { id := c2Address, name := some "Tok", symbol := some "TK",
             decimals := none },
         [c2Address]) ∧
    ({ id := c2Address, name := some "Tok", symbol := some "TK",
       decimals := none } : FToken).decimals ≠ c2StoredToken.decimals := by
  refine ⟨rfl, rfl, by decide⟩

/-! ### Claim C9 (needed before C5's amended statement uses the clamp) -/
/-- C9: `getTokenTotalSupply` never returns a negative value; in particular a
BURN whose amount exceeds the current amount is clamped to zero. -/
theorem c9_total_supply_never_negative :
    ∀ (currentAmount newAmount : Int) (txType : TransferType),
      0 ≤ newAmount →
      0 ≤ getTokenTotalSupply currentAmount newAmount txType ∧
      (currentAmount < newAmount →
        getTokenTotalSupply currentAmount newAmount TransferType.BURN = 0) := by
  intro currentAmount newAmount txType hn
  constructor
  · unfold getTokenTotalSupply
    cases txType <;> dsimp only <;> split_ifs <;> omega
  · intro hlt
    unfold getTokenTotalSupply
    dsimp only
    split_ifs <;> omega

/-- C9 witness: a BURN of 5 on a balance of 3 yields 0. -/
theorem c9_witness :
    (0 : Int) ≤ 5 ∧ 0 ≤ getTokenTotalSupply 3 5 TransferType.BURN ∧
    ((3 : Int) < 5 → getTokenTotalSupply 3 5 TransferType.BURN = 0) :=
  ⟨by decide, (c9_total_supply_never_negative 3 5 TransferType.BURN (by decide)).1,
    (c9_total_supply_never_negative 3 5 TransferType.BURN (by decide)).2⟩

/-! ### Claim C5 -/
/-- C5 counterexample: the claim's "BURN subtracts it" fails when the burned
amount exceeds the current amount — the source clamps the result at zero
(`newValue >= 0 ? newValue : 0`), so burning 7 from 5 yields 0, not 5 − 7. -/
theorem c5_burn_is_clamped_not_plain_subtraction :
    getTokenTotalSupply 5 7 TransferType.BURN = 0 ∧
    getTokenTotalSupply 5 7 TransferType.BURN ≠ 5 - 7 := by decide

/-- C5 (amended): the running amount is recomputed by `getTokenTotalSupply`
seeded by the transfer type — MINT adds, BURN subtracts clamping at zero,
TRANSFER keeps the amount unless it is zero (bootstrap from the observed
amount) — and `NftTransferManager.getOrCreate` re-caches the token with
exactly that amount and with isBurned = (ERC721: classified BURN;
otherwise: resulting amount ≤ 0). -/
theorem c5_supply_and_burn_recompute :
    (∀ (currentAmount newAmount : Int), 0 ≤ currentAmount → 0 ≤ newAmount →
       getTokenTotalSupply currentAmount newAmount TransferType.MINT =
         currentAmount + newAmount ∧
       getTokenTotalSupply currentAmount newAmount TransferType.BURN =
         max (currentAmount - newAmount) 0 ∧
       (currentAmount = 0 →
         getTokenTotalSupply currentAmount newAmount TransferType.TRANSFER =
           newAmount) ∧
       (currentAmount ≠ 0 →
         getTokenTotalSupply currentAmount newAmount TransferType.TRANSFER =
           currentAmount))
    ∧
    (∀ (o : ChainOracle) (st : Stores) (ev : EventCtx) (s : ProcState)
       (from_ to_ : String) (operator? : Option String) (amount : Int)
       (tokenId : Nat) (isBatch : Bool) (contractStandard : ContractStandard)
       (tk : NfToken),
       s.accounts.inited = true → s.nfTokens.inited = true →
       lookupEither st.nfTokens s.nfTokens
         (getTokenEntityId ev.address (some (Nat.repr tokenId))) = some tk →
       tk.name ≠ none → tk.symbol ≠ none →
       tk.id = getTokenEntityId ev.address (some (Nat.repr tokenId)) →
       ∃ tr s',
         nftTransferGetOrCreate o st ev s from_ to_ operator? amount tokenId
           isBatch contractStandard = Except.ok (tr, s') ∧
         smapFind s'.nfTokens.cache
           (getTokenEntityId ev.address (some (Nat.repr tokenId))) =
           some (nftTransferTokenUpdate tk amount from_ to_ contractStandard) ∧
         (nftTransferTokenUpdate tk amount from_ to_ contractStandard).amount =
           getTokenTotalSupply tk.amount amount (getTransferType from_ to_) ∧
         ((nftTransferTokenUpdate tk amount from_ to_ contractStandard).isBurned =
            true ↔
          (if contractStandard = ContractStandard.ERC721 then
            getTransferType from_ to_ = TransferType.BURN
          else getTokenTotalSupply tk.amount amount
            (getTransferType from_ to_) ≤ 0))) := by
  constructor
  · intro currentAmount newAmount hc hn
    refine ⟨?_, ?_, ?_, ?_⟩
    · unfold getTokenTotalSupply
      dsimp only
      split_ifs <;> omega
    · unfold getTokenTotalSupply
      dsimp only
      split_ifs <;> omega
    · intro h0
      unfold getTokenTotalSupply
      dsimp only
      split_ifs <;> omega
    · intro h0
      unfold getTokenTotalSupply
      dsimp only
      split_ifs <;> omega
  · intro o st ev s from_ to_ operator? amount tokenId isBatch
      contractStandard tk hA hN hfound hname hsym hid
    obtain ⟨tr, s', hrun, _, _, _, _, hnft, _, _, _, _, _⟩ :=
      nftTransferGetOrCreate_found o st ev s from_ to_ operator? amount
        tokenId isBatch contractStandard tk hA hN hfound hname hsym
    refine ⟨tr, s', hrun, ?_, rfl, ?_⟩
    · rw [hnft, mgrAdd_cache]
      have hkey : (nftTransferTokenUpdate tk amount from_ to_
          contractStandard).id =
          getTokenEntityId ev.address (some (Nat.repr tokenId)) := hid
      rw [hkey]
      exact smapFind_set_self _ _ _
    · unfold nftTransferTokenUpdate getTokenBurnedStatus
      dsimp only
      split_ifs with h721 <;> simp [decide_eq_true_eq]

/-- C5 witness: the amended theorem applied at amounts (5, 7) and at a
concrete further transfer of an existing token. -/
theorem c5_witness :
    ((0 : Int) ≤ 5 ∧ (0 : Int) ≤ 7) ∧
    (getTokenTotalSupply 5 7 TransferType.MINT = 5 + 7 ∧
     getTokenTotalSupply 5 7 TransferType.BURN = max (5 - 7) 0 ∧
     ((5 : Int) = 0 → getTokenTotalSupply 5 7 TransferType.TRANSFER = 7) ∧
     ((5 : Int) ≠ 0 → getTokenTotalSupply 5 7 TransferType.TRANSFER = 5)) ∧
    (∃ tr s',
       nftTransferGetOrCreate nullOracle nftPresentStores sampleCtx
         batchProcState "0xfrom" "0xto" none 2 42 false
         ContractStandard.ERC1155 = Except.ok (tr, s') ∧
       smapFind s'.nfTokens.cache
         (getTokenEntityId sampleCtx.address (some (Nat.repr 42))) =
         some (nftTransferTokenUpdate presentNfToken 2 "0xfrom" "0xto"
           ContractStandard.ERC1155) ∧
       (nftTransferTokenUpdate presentNfToken 2 "0xfrom" "0xto"
         ContractStandard.ERC1155).amount =
         getTokenTotalSupply presentNfToken.amount 2
           (getTransferType "0xfrom" "0xto") ∧
       ((nftTransferTokenUpdate presentNfToken 2 "0xfrom" "0xto"
          ContractStandard.ERC1155).isBurned = true ↔
        (if ContractStandard.ERC1155 = ContractStandard.ERC721 then
          getTransferType "0xfrom" "0xto" = TransferType.BURN
        else getTokenTotalSupply presentNfToken.amount 2
          (getTransferType "0xfrom" "0xto") ≤ 0))) :=
  ⟨⟨by decide, by decide⟩,
   c5_supply_and_burn_recompute.1 5 7 (by decide) (by decide),
   c5_supply_and_burn_recompute.2 nullOracle nftPresentStores sampleCtx
     batchProcState "0xfrom" "0xto" none 2 42 false ContractStandard.ERC1155
     presentNfToken rfl rfl rfl (by decide) (by decide) rfl⟩

/-! ### Claim C10 -/
/-- C10: processing a further transfer of an NfToken that already exists
(cache or store) with non-null name and symbol re-caches it with only
`amount` and `isBurned` recomputed: id, nativeId, name, symbol, uri,
collection and in particular `currentOwner` are all unchanged — the owner is
never reassigned to the transfer's recipient on an existing token. -/
theorem c10_existing_token_frame :
    ∀ (o : ChainOracle) (st : Stores) (ev : EventCtx) (s : ProcState)
      (from_ to_ : String) (operator? : Option String) (amount : Int)
      (tokenId : Nat) (isBatch : Bool) (contractStandard : ContractStandard)
      (tk : NfToken),
      s.accounts.inited = true → s.nfTokens.inited = true →
      lookupEither st.nfTokens s.nfTokens
        (getTokenEntityId ev.address (some (Nat.repr tokenId))) = some tk →
      tk.name ≠ none → tk.symbol ≠ none →
      tk.id = getTokenEntityId ev.address (some (Nat.repr tokenId)) →
      ∃ tr s',
        nftTransferGetOrCreate o st ev s from_ to_ operator? amount tokenId
          isBatch contractStandard = Except.ok (tr, s') ∧
        smapFind s'.nfTokens.cache
          (getTokenEntityId ev.address (some (Nat.repr tokenId))) =
          some (nftTransferTokenUpdate tk amount from_ to_ contractStandard) ∧
        (nftTransferTokenUpdate tk amount from_ to_ contractStandard).currentOwner =
          tk.currentOwner ∧
        (nftTransferTokenUpdate tk amount from_ to_ contractStandard).id = tk.id ∧
        (nftTransferTokenUpdate tk amount from_ to_ contractStandard).nativeId =
          tk.nativeId ∧
        (nftTransferTokenUpdate tk amount from_ to_ contractStandard).name =
          tk.name ∧
        (nftTransferTokenUpdate tk amount from_ to_ contractStandard).symbol =
          tk.symbol ∧
        (nftTransferTokenUpdate tk amount from_ to_ contractStandard).uri =
          tk.uri ∧
        (nftTransferTokenUpdate tk amount from_ to_ contractStandard).collection =
          tk.collection := by
  intro o st ev s from_ to_ operator? amount tokenId isBatch contractStandard
    tk hA hN hfound hname hsym hid
  obtain ⟨tr, s', hrun, _, _, _, _, hnft, _, _, _, _, _⟩ :=
    nftTransferGetOrCreate_found o st ev s from_ to_ operator? amount tokenId
      isBatch contractStandard tk hA hN hfound hname hsym
  refine ⟨tr, s', hrun, ?_, rfl, rfl, rfl, rfl, rfl, rfl, rfl⟩
  rw [hnft, mgrAdd_cache]
  have hkey : (nftTransferTokenUpdate tk amount from_ to_
      contractStandard).id =
      getTokenEntityId ev.address (some (Nat.repr tokenId)) := hid
  rw [hkey]
  exact smapFind_set_self _ _ _

/-- C10 witness: a concrete ERC1155 transfer of the present token; owner is
"0xowner" before and after, recipient "0xto" does not become the owner. -/
theorem c10_witness :
    batchProcState.accounts.inited = true ∧
    lookupEither nftPresentStores.nfTokens batchProcState.nfTokens
      (getTokenEntityId sampleCtx.address (some (Nat.repr 42))) =
      some presentNfToken ∧
    (∃ tr s',
      nftTransferGetOrCreate nullOracle nftPresentStores sampleCtx
        batchProcState "0xfrom" "0xto" none 2 42 false
        ContractStandard.ERC1155 = Except.ok (tr, s') ∧
      smapFind s'.nfTokens.cache
        (getTokenEntityId sampleCtx.address (some (Nat.repr 42))) =
        some (nftTransferTokenUpdate presentNfToken 2 "0xfrom" "0xto"
          ContractStandard.ERC1155) ∧
      (nftTransferTokenUpdate presentNfToken 2 "0xfrom" "0xto"
        ContractStandard.ERC1155).currentOwner = presentNfToken.currentOwner ∧
      (nftTransferTokenUpdate presentNfToken 2 "0xfrom" "0xto"
        ContractStandard.ERC1155).id = presentNfToken.id ∧
      (nftTransferTokenUpdate presentNfToken 2 "0xfrom" "0xto"
        ContractStandard.ERC1155).nativeId = presentNfToken.nativeId ∧
      (nftTransferTokenUpdate presentNfToken 2 "0xfrom" "0xto"
        ContractStandard.ERC1155).name = presentNfToken.name ∧
      (nftTransferTokenUpdate presentNfToken 2 "0xfrom" "0xto"
        ContractStandard.ERC1155).symbol = presentNfToken.symbol ∧
      (nftTransferTokenUpdate presentNfToken 2 "0xfrom" "0xto"
        ContractStandard.ERC1155).uri = presentNfToken.uri ∧
      (nftTransferTokenUpdate presentNfToken 2 "0xfrom" "0xto"
        ContractStandard.ERC1155).collection = presentNfToken.collection) :=
  ⟨rfl, rfl,
   c10_existing_token_frame nullOracle nftPresentStores sampleCtx
     batchProcState "0xfrom" "0xto" none 2 42 false ContractStandard.ERC1155
     presentNfToken rfl rfl rfl (by decide) (by decide) rfl⟩

/-! ### Claim C6 -/
/-- C6: one ERC1155 `TransferBatch` event with n pairwise-distinct (id,
value) pairs yields n derived transfers, all keyed `<eventId>-<tokenId>`,
appended in order to the transfer cache; and the concrete instance
ids=[1,2], values=[5,7] with distinct parties produces exactly the two
transfers `<eventId>-1`, `<eventId>-2` and exactly four Account×Transfer
join rows (directions From, To for each derived transfer). -/
theorem c6_transfer_batch_fanout :
    (∀ (o : ChainOracle) (st : Stores) (ev : EventCtx)
       (p : Erc1155TransferBatchPayload) (s : ProcState),
       s.accounts.inited = true → s.nfTokens.inited = true →
       s.collections.inited = true → s.accountNftTransfers.inited = true →
       p.ids.length ≤ p.values.length →
       (∀ t ∈ p.ids,
         derivedTransferId ev.eventId t ∉ smapKeys s.nftTransfers.cache) →
       (p.ids.map (derivedTransferId ev.eventId)).Nodup →
       ∃ s',
         handleErc1155TransferBatch o st ev s (some p) = Except.ok s' ∧
         smapKeys s'.nftTransfers.cache =
           smapKeys s.nftTransfers.cache ++
             p.ids.map (derivedTransferId ev.eventId))
    ∧
    ((runProcessing nullOracle emptyStores batchProcState
        [{ ctx := sampleCtx,
           item := LogItem.transferBatch
             { operator := "0xoper", from_ := "0xfrom", to_ := "0xto",
               ids := [1, 2], values := [5, 7] } }]).map
        (fun s =>
          (smapKeys s.nftTransfers.cache,
           s.accountNftTransfers.cache.length,
           s.accountNftTransfers.cache.map (fun kv => kv.2.direction))) =
      Except.ok
        ([getNftTransferEntityId sampleCtx.eventId "1",
          getNftTransferEntityId sampleCtx.eventId "2"], 4,
         [TransferDirection.From, TransferDirection.To,
          TransferDirection.From, TransferDirection.To])) := by
  constructor
  · intro o st ev p s hA hN hC hAnt hlen hfresh hnodup
    unfold handleErc1155TransferBatch
    exact transferBatchLoop_keys o st ev p.operator p.from_ p.to_ p.ids
      p.values s hA hN hC hAnt hlen hfresh hnodup
  · rfl

/-- C6 witness: the fan-out theorem applied to the concrete batch payload
ids=[1,2], values=[5,7] on a fresh batch state. -/
theorem c6_witness :
    ([1, 2].map (derivedTransferId sampleCtx.eventId)).Nodup ∧
    (∃ s',
      handleErc1155TransferBatch nullOracle emptyStores sampleCtx
        batchProcState
        (some { operator := "0xoper", from_ := "0xfrom", to_ := "0xto",
                ids := [1, 2], values := [5, 7] }) = Except.ok s' ∧
      smapKeys s'.nftTransfers.cache =
        smapKeys batchProcState.nftTransfers.cache ++
          [1, 2].map (derivedTransferId sampleCtx.eventId)) :=
  ⟨by decide,
   c6_transfer_batch_fanout.1 nullOracle emptyStores sampleCtx
     { operator := "0xoper", from_ := "0xfrom", to_ := "0xto",
       ids := [1, 2], values := [5, 7] } batchProcState rfl rfl rfl rfl
     (by decide) (by intro t ht; simp [batchProcState, freshProcState,
       initAllEntityManagers, Mgr.start, mgrInit]) (by decide)⟩

/-- C3: an existing Account×FToken row is updated incrementally (prior −
amount for the sender's `sub`, prior + amount for the receiver's `add`),
never recomputed; a missing row is created with its amount bootstrapped from
the live on-chain balance read; and `handleErc20Transfer` applies `sub` to
the sender and `add` to the receiver (concrete run: sender 100 − 30 = 70,
receiver bootstrapped to 55). -/
theorem c3_incremental_balance_update :
    (∀ (o : ChainOracle) (ev : EventCtx)
       (store : String → Option AccountFTokenBalance)
       (m : Mgr AccountFTokenBalance) (account : Account) (token : FToken)
       (contractAddress : String) (amount : Int) (bal : AccountFTokenBalance),
       m.inited = true →
       lookupEither store m
         (getAccountFTokenBalanceEntityId account.id token.id) = some bal →
       bal.id = getAccountFTokenBalanceEntityId account.id token.id →
       ∃ m₁ m₂,
         updateFTokenBalance o ev store m account token contractAddress
           amount FTokenBalanceAction.sub = Except.ok m₁ ∧
         smapFind m₁.cache
           (getAccountFTokenBalanceEntityId account.id token.id) =
           some { bal with amount := bal.amount - amount } ∧
         updateFTokenBalance o ev store m account token contractAddress
           amount FTokenBalanceAction.add = Except.ok m₂ ∧
         smapFind m₂.cache
           (getAccountFTokenBalanceEntityId account.id token.id) =
           some { bal with amount := bal.amount + amount })
    ∧
    (∀ (o : ChainOracle) (ev : EventCtx)
       (store : String → Option AccountFTokenBalance)
       (m : Mgr AccountFTokenBalance) (account : Account) (token : FToken)
       (contractAddress : String) (amount : Int)
       (action : FTokenBalanceAction),
       m.inited = true →
       lookupEither store m
         (getAccountFTokenBalanceEntityId account.id token.id) = none →
       ∃ m₃,
         updateFTokenBalance o ev store m account token contractAddress
           amount action = Except.ok m₃ ∧
         smapFind m₃.cache
           (getAccountFTokenBalanceEntityId account.id token.id) =
           some (createAccountFTokenBalances ev account token
             (o.balanceOf account.id contractAddress)))
    ∧
    ((handleErc20Transfer c3Oracle c3Stores sampleCtx batchProcState
        (some { from_ := "0xsender", to_ := "0xreceiver", value := 30 })).map
        (fun s =>
          ((smapFind s.accountFTokenBalances.cache
            (getAccountFTokenBalanceEntityId "0xsender"
              sampleCtx.address)).map AccountFTokenBalance.amount,
           (smapFind s.accountFTokenBalances.cache
            (getAccountFTokenBalanceEntityId "0xreceiver"
              sampleCtx.address)).map AccountFTokenBalance.amount)) =
      Except.ok (some 70, some 55)) := by
  refine ⟨?_, ?_, ?_⟩
  · intro o ev store m account token contractAddress amount bal hinit hfound
      hbalid
    refine ⟨_, _,
      updateFTokenBalance_existing o ev store m account token contractAddress
        amount FTokenBalanceAction.sub bal hinit hfound, ?_,
      updateFTokenBalance_existing o ev store m account token contractAddress
        amount FTokenBalanceAction.add bal hinit hfound, ?_⟩
    · rw [mgrAdd_cache, ← hbalid]
      exact smapFind_set_self m.cache
        (fTokenBalanceAdjust bal amount FTokenBalanceAction.sub).id
        (fTokenBalanceAdjust bal amount FTokenBalanceAction.sub)
    · rw [mgrAdd_cache, ← hbalid]
      exact smapFind_set_self m.cache
        (fTokenBalanceAdjust bal amount FTokenBalanceAction.add).id
        (fTokenBalanceAdjust bal amount FTokenBalanceAction.add)
  · intro o ev store m account token contractAddress amount action hinit hnone
    refine ⟨_,
      updateFTokenBalance_missing o ev store m account token contractAddress
        amount action hinit hnone, ?_⟩
    rw [mgrAdd_cache,
      show (createAccountFTokenBalances ev account token
        (o.balanceOf account.id contractAddress)).id =
        getAccountFTokenBalanceEntityId account.id token.id from rfl]
    exact smapFind_set_self _ _ _
  · rfl

/-- C3 witness: the general parts applied at the concrete sender row (100 −
30 and 100 + 30) and at the missing receiver row (bootstrap to 55). -/
theorem c3_witness :
    (mgrInit (Mgr.start : Mgr AccountFTokenBalance)).inited = true ∧
    lookupEither c3Stores.accountFTokenBalances
      (mgrInit (Mgr.start : Mgr AccountFTokenBalance))
      (getAccountFTokenBalanceEntityId "0xsender" sampleCtx.address) =
      some c3SenderRow ∧
    (∃ m₁ m₂,
      updateFTokenBalance c3Oracle sampleCtx c3Stores.accountFTokenBalances
        (mgrInit Mgr.start) { id := "0xsender" } c3SenderRow.token
        sampleCtx.address 30 FTokenBalanceAction.sub = Except.ok m₁ ∧
      smapFind m₁.cache
        (getAccountFTokenBalanceEntityId "0xsender" sampleCtx.address) =
        some { c3SenderRow with amount := c3SenderRow.amount - 30 } ∧
      updateFTokenBalance c3Oracle sampleCtx c3Stores.accountFTokenBalances
        (mgrInit Mgr.start) { id := "0xsender" } c3SenderRow.token
        sampleCtx.address 30 FTokenBalanceAction.add = Except.ok m₂ ∧
      smapFind m₂.cache
        (getAccountFTokenBalanceEntityId "0xsender" sampleCtx.address) =
        some { c3SenderRow with amount := c3SenderRow.amount + 30 }) ∧
    (∃ m₃,
      updateFTokenBalance c3Oracle sampleCtx c3Stores.accountFTokenBalances
        (mgrInit Mgr.start) { id := "0xreceiver" } c3SenderRow.token
        sampleCtx.address 30 FTokenBalanceAction.add = Except.ok m₃ ∧
      smapFind m₃.cache
        (getAccountFTokenBalanceEntityId "0xreceiver" sampleCtx.address) =
        some (createAccountFTokenBalances sampleCtx { id := "0xreceiver" }
          c3SenderRow.token
          (c3Oracle.balanceOf "0xreceiver" sampleCtx.address))) :=
  ⟨rfl, rfl,
   c3_incremental_balance_update.1 c3Oracle sampleCtx
     c3Stores.accountFTokenBalances (mgrInit Mgr.start) { id := "0xsender" }
     c3SenderRow.token sampleCtx.address 30 c3SenderRow rfl rfl rfl,
   c3_incremental_balance_update.2.1 c3Oracle sampleCtx
     c3Stores.accountFTokenBalances (mgrInit Mgr.start)
     { id := "0xreceiver" } c3SenderRow.token sampleCtx.address 30
     FTokenBalanceAction.add rfl rfl⟩

/-- C4 counterexample: for an account id absent from the durable store, one
batch queries the store twice for that id — once by the prefetch bulk `find`
(which caches nothing, since the row does not exist) and once more by the
first processing-phase `get` — so the durable store is NOT queried at most
once per id across the whole batch. -/
theorem c4_absent_id_queried_twice :
    ((accountsBatchRun c4AbsentStore ["0xabc"] ["0xabc"]).2.1 ++
      (accountsBatchRun c4AbsentStore ["0xabc"] ["0xabc"]).2.2).count
      "0xabc" = 2 := rfl

/-- C4 (amended): during the PROCESSING phase the store is queried at most
once per account id — every reference after the first is a cache hit (for a
well-formed store) — and when the id was prefetched and the store contains
it, the prefetch warms the cache so the processing phase issues no query at
all for it.  Only ids absent from the durable store can be queried twice
across the batch (prefetch find + first processing get). -/
theorem c4_at_most_one_processing_fetch :
    ∀ (store : String → Option Account) (prefetchIds procIds : List String)
      (id : String),
      storeWF Account.id store →
      ((accountsBatchRun store prefetchIds procIds).2.2.count id ≤ 1) ∧
      (id ∈ prefetchIds → (∃ e, store id = some e) →
        (accountsBatchRun store prefetchIds procIds).2.2.count id = 0) := by
  intro store prefetchIds procIds id hwf
  have hinit1 : (mgrAddPrefetchItemId (mgrInit (Mgr.start : Mgr Account))
      prefetchIds).inited = true := rfl
  constructor
  · obtain ⟨m2, plog, hok, hinit2, _⟩ :=
      mgrPrefetchEntities_ok store Account.id
        (mgrAddPrefetchItemId (mgrInit Mgr.start) prefetchIds) hinit1
    unfold accountsBatchRun
    simp only [hok]
    exact accountsRun_count_le_one store id hwf procIds m2 hinit2
  · rintro hmem ⟨e, he⟩
    have hmem1 : id ∈ (mgrAddPrefetchItemId (mgrInit (Mgr.start : Mgr Account))
        prefetchIds).prefetchIds := by
      show id ∈ ([] : List String) ++ prefetchIds
      simpa using hmem
    obtain ⟨m2, plog, hok, hinit2, hkey⟩ :=
      mgrPrefetchEntities_warm store Account.id
        (mgrAddPrefetchItemId (mgrInit Mgr.start) prefetchIds) id e hinit1
        hmem1 he hwf
    unfold accountsBatchRun
    simp only [hok]
    exact accountsRun_count_zero store id hwf procIds m2 hinit2 hkey

/-- C4 witness: a store that contains "0xabc"; prefetching it means the two
processing references cause no store query at all. -/
theorem c4_witness :
    storeWF Account.id c4PresentStore ∧
    ((accountsBatchRun c4PresentStore ["0xabc"]
      ["0xabc", "0xabc"]).2.2.count "0xabc" ≤ 1) ∧
    ((accountsBatchRun c4PresentStore ["0xabc"]
      ["0xabc", "0xabc"]).2.2.count "0xabc" = 0) := by
  have hwf : storeWF Account.id c4PresentStore := by
    intro k e he
    unfold c4PresentStore at he
    by_cases hk : k = "0xabc"
    · rw [if_pos hk] at he
      injection he with he
      rw [← he, hk]
    · rw [if_neg hk] at he
      cases he
  exact ⟨hwf,
    (c4_at_most_one_processing_fetch c4PresentStore ["0xabc"]
      ["0xabc", "0xabc"] "0xabc" hwf).1,
    (c4_at_most_one_processing_fetch c4PresentStore ["0xabc"]
      ["0xabc", "0xabc"] "0xabc" hwf).2 (by decide)
      ⟨{ id := "0xabc" }, rfl⟩⟩

/-- C7 counterexample: "0006648936.gggg" does not match the claim's
hex/digit sentinel (g is not a hex digit), so by the claim it should be
returned unchanged (it has no null bytes); but the source regex class
`[\d|\w]` accepts any word character, so the code maps it to null. -/
theorem c7_sentinel_class_wider_than_hex :
    claimSentinelHex "0006648936.gggg" = false ∧
    clearNullBytes "0006648936.gggg" = "0006648936.gggg" ∧
    getDecoratedCallResult (some "0006648936.gggg") = none := by
  refine ⟨by decide, by decide, by decide⟩

/-- C7 (amended): `getDecoratedCallResult` maps a non-empty string exactly
matching 10 digits, a dot, and 4 characters of the class `[\d|\w]` (word
characters — letters, digits, underscore — or a literal pipe) to null, and
returns every other non-empty string with only its null bytes removed. -/
theorem c7_decorated_call_result :
    ∀ s : String, s ≠ "" →
      (specSentinelAmended s → getDecoratedCallResult (some s) = none) ∧
      (¬ specSentinelAmended s →
        getDecoratedCallResult (some s) = some (clearNullBytes s)) := by
  intro s hs
  constructor
  · intro hspec
    unfold getDecoratedCallResult
    dsimp only
    rw [if_neg hs, if_pos ((specSentinelAmended_iff s).mp hspec)]
  · intro hspec
    unfold getDecoratedCallResult
    dsimp only
    rw [if_neg hs, if_neg (fun h => hspec ((specSentinelAmended_iff s).mpr h))]

/-- C7 witness: the null-byte stripping instance of the claim
("My\u0000Token" persists as "MyToken") via the amended theorem, plus the
sentinel instance "0006648936.1ec7" mapping to null. -/
theorem c7_witness :
    ("My\x00Token" ≠ "") ∧ ¬ specSentinelAmended "My\x00Token" ∧
    getDecoratedCallResult (some "My\x00Token") =
      some (clearNullBytes "My\x00Token") ∧
    clearNullBytes "My\x00Token" = "MyToken" ∧
    specSentinelAmended "0006648936.1ec7" ∧
    getDecoratedCallResult (some "0006648936.1ec7") = none :=
  ⟨by decide, by decide,
   (c7_decorated_call_result "My\x00Token" (by decide)).2 (by decide),
   by decide, by decide,
   (c7_decorated_call_result "0006648936.1ec7" (by decide)).1 (by decide)⟩

/-! ### Claim C8 -/
/-- C8 counterexample: `add` and `addPrefetchItemId` perform no
initialization check at all — invoked on an unbound manager they succeed and
mutate the in-memory state, instead of failing with a not-initialized error
and leaving the state unchanged. -/
theorem c8_add_mutates_uninitialized_manager :
    (Mgr.start : Mgr Account).inited = false ∧
    (mgrAdd Account.id Mgr.start { id := "0xdead" }).cache =
      [("0xdead", { id := "0xdead" })] ∧
    (mgrAddPrefetchItemId (Mgr.start : Mgr Account) ["0xdead"]).prefetchIds =
      ["0xdead"] := by
  refine ⟨rfl, rfl, rfl⟩

/-- C8 (amended): on a manager not yet bound to a durable-store handle,
`get`, `prefetchEntities`, `saveAll` and every id-resolving `getOrCreate`
fail with the `'context is not defined'` error (leaving the state
unchanged, as nothing is returned); `add` and `addPrefetchItemId`, however,
perform no check and mutate the in-memory state. -/
theorem c8_uninitialized_operations :
    (∀ {E : Type} (idOf : E → String) (store : String → Option E)
       (m : Mgr E) (id : String) (e : E) (ids : List String),
       m.inited = false →
       mgrGet store m id = Except.error "context is not defined" ∧
       mgrPrefetchEntities store idOf m =
         Except.error "context is not defined" ∧
       mgrSaveAll m = Except.error "context is not defined" ∧
       (mgrAdd idOf m e).cache = smapSet m.cache (idOf e) e ∧
       (mgrAddPrefetchItemId m ids).prefetchIds = m.prefetchIds ++ ids)
    ∧
    (∀ (store : String → Option Account) (m : Mgr Account) (id : String),
       m.inited = false →
       accountsGetOrCreate store m id =
         Except.error "context is not defined")
    ∧
    (∀ (o : ChainOracle) (store : String → Option FToken) (m : Mgr FToken)
       (a : String) (cs : ContractStandard),
       m.inited = false →
       fTokenGetOrCreate o store m a cs =
         Except.error "context is not defined")
    ∧
    (∀ (o : ChainOracle) (ev : EventCtx) (ns : String → Option NfToken)
       (csrc : String → Option Collection) (m : Mgr NfToken)
       (cols : Mgr Collection) (nid : Nat) (a : String)
       (cs : ContractStandard) (owner : Account),
       m.inited = false →
       nfTokenGetOrCreate o ev ns csrc m cols nid a cs owner =
         Except.error "context is not defined")
    ∧
    (∀ (ev : EventCtx) (store : String → Option Collection)
       (m : Mgr Collection) (id : String) (cs : ContractStandard),
       m.inited = false →
       collectionGetOrCreate ev store m id cs =
         Except.error "context is not defined")
    ∧
    (∀ (ev : EventCtx) (store : String → Option UriUpdateAction)
       (m : Mgr UriUpdateAction) (id : String) (tk : NfToken)
       (nv ov : Option String),
       m.inited = false →
       uriUpdateActionsGetOrCreate ev store m id tk nv ov =
         Except.error "context is not defined")
    ∧
    (∀ (o : ChainOracle) (ev : EventCtx)
       (store : String → Option AccountFTokenBalance)
       (m : Mgr AccountFTokenBalance) (id? : Option String) (a : Account)
       (tk : FToken) (ca : String),
       m.inited = false →
       accountFTokenBalanceGetOrCreate o ev store m id? a tk ca =
         Except.error "context is not defined")
    ∧
    (∀ (store : String → Option AccountFtTransfer)
       (m : Mgr AccountFtTransfer) (id? : Option String) (a : Account)
       (tr : FtTransfer) (d : TransferDirection),
       m.inited = false →
       accountsFtTransferGetOrCreate store m id? a tr d =
         Except.error "context is not defined")
    ∧
    (∀ (store : String → Option AccountNftTransfer)
       (m : Mgr AccountNftTransfer) (id? : Option String) (a : Account)
       (tr : NftTransfer) (d : TransferDirection),
       m.inited = false →
       accountsNftTransferGetOrCreate store m id? a tr d =
         Except.error "context is not defined")
    ∧
    (∀ (o : ChainOracle) (ev : EventCtx)
       (store : String → Option AccountFTokenBalance)
       (m : Mgr AccountFTokenBalance) (a : Account) (tk : FToken)
       (ca : String) (amt : Int) (act : FTokenBalanceAction),
       m.inited = false →
       updateFTokenBalance o ev store m a tk ca amt act =
         Except.error "context is not defined") := by
  refine ⟨?_, ?_, ?_, ?_, ?_, ?_, ?_, ?_, ?_, ?_⟩
  · intro E idOf store m id e ids h
    refine ⟨?_, ?_, ?_, rfl, rfl⟩
    · unfold mgrGet; rw [h]; rfl
    · unfold mgrPrefetchEntities; rw [h]; rfl
    · unfold mgrSaveAll; rw [h]; rfl
  · intro store m id h
    unfold accountsGetOrCreate; rw [h]; rfl
  · intro o store m a cs h
    unfold fTokenGetOrCreate; rw [h]; rfl
  · intro o ev ns csrc m cols nid a cs owner h
    unfold nfTokenGetOrCreate; rw [h]; rfl
  · intro ev store m id cs h
    unfold collectionGetOrCreate; rw [h]; rfl
  · intro ev store m id tk nv ov h
    unfold uriUpdateActionsGetOrCreate; rw [h]; rfl
  · intro o ev store m id? a tk ca h
    unfold accountFTokenBalanceGetOrCreate; rw [h]; rfl
  · intro store m id? a tr d h
    unfold accountsFtTransferGetOrCreate; rw [h]; rfl
  · intro store m id? a tr d h
    unfold accountsNftTransferGetOrCreate; rw [h]; rfl
  · intro o ev store m a tk ca amt act h
    unfold updateFTokenBalance mgrGet; rw [h]; rfl

/-- C8 witness: the amended theorem applied to a concrete unbound accounts
manager. -/
theorem c8_witness :
    (Mgr.start : Mgr Account).inited = false ∧
    mgrGet (fun _ => none) (Mgr.start : Mgr Account) "0xa" =
      Except.error "context is not defined" ∧
    accountsGetOrCreate (fun _ => none) Mgr.start "0xa" =
      Except.error "context is not defined" :=
  ⟨rfl,
   (c8_uninitialized_operations.1 Account.id (fun _ => none) Mgr.start "0xa"
     { id := "0xa" } [] rfl).1,
   c8_uninitialized_operations.2.1 (fun _ => none) Mgr.start "0xa" rfl⟩
